import Mathlib

/-!
Verification development for the ARCON.js RCON client.

The definitions below are shallow embeddings of the TypeScript sources:
byte buffers are lists of naturals (each byte < 256), JS strings are
lists of Unicode code points obtained by WHATWG UTF-8 decoding (the
semantics of Node Buffer.prototype.toString), and CRC-32 is the IEEE
polynomial 0xEDB88320 as computed by the buffer-crc32 package.
-/

/-- One bit-step of the IEEE CRC-32 computation: shift right and
conditionally xor with the reversed polynomial 0xEDB88320. -/
def crc32Bit (c : Nat) : Nat :=
  if c % 2 = 1 then (c / 2) ^^^ 0xEDB88320 else c / 2

/-- Fold one byte into the running CRC-32 accumulator (eight bit-steps). -/
def crc32Byte (c b : Nat) : Nat :=
  crc32Bit (crc32Bit (crc32Bit (crc32Bit (crc32Bit (crc32Bit (crc32Bit (crc32Bit (c ^^^ b % 256))))))))

/-- Standard CRC-32 (IEEE polynomial 0xEDB88320) of a byte list, as
computed by the buffer-crc32 npm package used in src/Arcon/packet.ts. -/
def crc32 (l : List Nat) : Nat :=
  (l.foldl crc32Byte 0xFFFFFFFF) ^^^ 0xFFFFFFFF

/-- The four bytes of the CRC-32 value in little-endian order: the
buffer-crc32 result (big-endian buffer) followed by .reverse(). -/
def crc32le (l : List Nat) : List Nat :=
  [crc32 l % 256, crc32 l / 256 % 256, crc32 l / 65536 % 256, crc32 l / 16777216 % 256]

/-- WHATWG UTF-8 decoding with U+FFFD replacement for invalid subparts.
This is the semantics of Node Buffer.prototype.toString with the utf8
encoding, which the TypeScript code applies to packet prefixes,
checksums and payloads. Returns the list of decoded code points. -/
def utf8Decode : List Nat → List Nat
  | [] => []
  | b :: rest =>
    if b < 128 then b :: utf8Decode rest
    else if b < 194 then 0xFFFD :: utf8Decode rest
    else if b ≤ 223 then
      match rest with
      | [] => [0xFFFD]
      | c :: rest2 =>
        if 128 ≤ c ∧ c ≤ 191 then ((b - 192) * 64 + (c - 128)) :: utf8Decode rest2
        else 0xFFFD :: utf8Decode (c :: rest2)
    else if b ≤ 239 then
      match rest with
      | [] => [0xFFFD]
      | c :: rest2 =>
        if (if b = 224 then 160 else 128) ≤ c ∧ c ≤ (if b = 237 then 159 else 191) then
          match rest2 with
          | [] => [0xFFFD]
          | d :: rest3 =>
            if 128 ≤ d ∧ d ≤ 191 then
              ((b - 224) * 4096 + (c - 128) * 64 + (d - 128)) :: utf8Decode rest3
            else 0xFFFD :: utf8Decode (d :: rest3)
        else 0xFFFD :: utf8Decode (c :: rest2)
    else if b ≤ 244 then
      match rest with
      | [] => [0xFFFD]
      | c :: rest2 =>
        if (if b = 240 then 144 else 128) ≤ c ∧ c ≤ (if b = 244 then 143 else 191) then
          match rest2 with
          | [] => [0xFFFD]
          | d :: rest3 =>
            if 128 ≤ d ∧ d ≤ 191 then
              match rest3 with
              | [] => [0xFFFD]
              | e :: rest4 =>
                if 128 ≤ e ∧ e ≤ 191 then
                  ((b - 240) * 262144 + (c - 128) * 4096 + (d - 128) * 64 + (e - 128)) :: utf8Decode rest4
                else 0xFFFD :: utf8Decode (e :: rest4)
            else 0xFFFD :: utf8Decode (d :: rest3)
        else 0xFFFD :: utf8Decode (c :: rest2)
    else 0xFFFD :: utf8Decode rest

/-- Error cases produced by createPacket in src/Arcon/packet.ts.
tooShort carries the message Packet too short, badPfx the message
Invalid packet prefix, badCrc the message Invalid checksum. -/
inductive PacketErrKind where
  | tooShort
  | badPfx
  | badCrc
deriving DecidableEq, Repr

/-- Decoded result of createPacket in src/Arcon/packet.ts: an error, a
LoginPacket, a Packet (whole command or server message), or a
CommandPacketPart. The checksum field is the JS string (code points) of
the stored checksum bytes; sequence, totalPackets and packetIndex are
Option because out-of-range Buffer indexing yields undefined in JS. -/
inductive Parsed where
  | err (e : PacketErrKind)
  | loginP (checksum : List Nat) (data : List Nat)
  | whole (checksum : List Nat) (ptype : Nat) (sequence : Option Nat) (data : List Nat)
  | part (checksum : List Nat) (sequence : Option Nat) (totalPackets : Option Nat)
      (packetIndex : Option Nat) (data : List Nat)
deriving DecidableEq, Repr

/-- Shallow embedding of createPacket (src/Arcon/packet.ts, lines
148 to 178). Mirrors the source exactly: length check, prefix string
comparison against BE, checksum string comparison, type dispatch on
byte 7, and the multi-part subheader test
(packetData.length && packetData[0] === 0x00). There is no unknown-kind
check: any nonzero type byte other than 2 with a subheader parses as a
part, and otherwise as a whole packet. -/
def createPacket (msg : List Nat) : Parsed :=
  if msg.length < 8 then .err .tooShort
  else if utf8Decode (msg.take 2) ≠ [66, 69] then .err .badPfx
  else
    let checksumStr := utf8Decode ((msg.drop 2).take 4)
    if checksumStr ≠ utf8Decode (crc32le (msg.drop 6)) then .err .badCrc
    else
      let ptype := msg.getD 7 0
      let data := msg.drop 8
      if ptype = 0 then .loginP checksumStr data
      else
        let packetData := data.drop 1
        if ptype = 2 ∨ ¬(packetData.length ≠ 0 ∧ packetData.head? = some 0) then
          .whole checksumStr ptype data.head? packetData
        else
          .part checksumStr data.head? packetData[1]? packetData[2]? (packetData.drop 3)

/-- Wire bytes of Packet.prototype.toBuffer (src/Arcon/packet.ts):
prefix BE, little-endian CRC-32 of the body, then the body
0xFF, type, sequence, data. The type and sequence bytes are reduced
mod 256 because Buffer.from truncates numbers to octets. -/
def packetToBuffer (ptype seq : Nat) (data : Option (List Nat)) : List Nat :=
  let pfixed := 255 :: ptype % 256 :: seq % 256 :: (match data with | none => [] | some d => d)
  66 :: 69 :: (crc32le pfixed ++ pfixed)

/-- Wire bytes of LoginPacket.prototype.toBuffer (src/Arcon/packet.ts):
prefix BE, little-endian CRC-32, then 0xFF, type byte 0, password. -/
def loginToBuffer (pwd : List Nat) : List Nat :=
  let pfixed := 255 :: 0 :: pwd
  66 :: 69 :: (crc32le pfixed ++ pfixed)

/-- Outcome of the login-response handler: failedClose models emitting
a login-failure error and calling close with abortReconnect, and
connectedOk models entering the connected state. -/
inductive LoginHandleResult where
  | failedClose
  | connectedOk
deriving DecidableEq, Repr

/-- Shallow embedding of BaseClient handleLogin decision
(src/Arcon/client.ts, lines 109 to 124): the failure branch is taken
exactly when packet.data.toString() equals the one-character string 0,
whose code point is 48. -/
def handleLogin (data : List Nat) : LoginHandleResult :=
  if utf8Decode data = [48] then .failedClose else .connectedOk

/-- C1: a Login frame whose status byte is 0x00 should surface an
invalid-password error and close the session with abortReconnect, but
the handler compares the UTF-8 decoding of the data against the ASCII
character 0 (code 48), so the status byte 0x00 (decoding to code point
0) takes the success branch and the client emits connected instead.
The frame below is BE, CRC-32 little-endian, 0xFF, kind 0, status 0x00
with a valid checksum; it decodes to a login packet with data [0], and
handleLogin sends it to the connected branch, while only the ASCII
byte 48 triggers the failure branch. -/
theorem c1_login_status_zero_treated_as_success :
    createPacket [66, 69, 255, 237, 217, 65, 255, 0, 0] =
      .loginP [0xFFFD, 0xFFFD, 0xFFFD, 65] [0]
    ∧ handleLogin [0] = .connectedOk
    ∧ handleLogin [1] = .connectedOk
    ∧ handleLogin [48] = .failedClose := by decide

/-- Decoding a one-byte buffer: an ASCII byte decodes to itself and any
other single byte decodes to the replacement character. -/
theorem utf8Decode_single (b : Nat) :
    utf8Decode [b] = if b < 128 then [b] else [0xFFFD] := by
  by_cases h1 : b < 128
  · simp [utf8Decode, h1]
  · by_cases h2 : b < 194 <;> by_cases h3 : b ≤ 223 <;> by_cases h4 : b ≤ 239 <;>
      by_cases h5 : b ≤ 244 <;> simp [utf8Decode, h1, h2, h3, h4, h5]

/-- The two-byte prefix comparison of the decoder is exact: the decoded
string equals BE (code points 66, 69) if and only if the raw bytes are
0x42 0x45. -/
theorem utf8Decode_pair_eq_BE (a b : Nat) :
    utf8Decode [a, b] = [66, 69] ↔ a = 66 ∧ b = 69 := by
  constructor
  · intro h
    by_cases h1 : a < 128
    · rw [utf8Decode, if_pos h1, utf8Decode_single] at h
      by_cases hb1 : b < 128
      · rw [if_pos hb1] at h
        simpa using h
      · rw [if_neg hb1] at h
        simp at h
    · by_cases h2 : a < 194
      · rw [utf8Decode, if_neg h1, if_pos h2] at h
        simp at h
      · by_cases h3 : a ≤ 223
        · rw [utf8Decode, if_neg h1, if_neg h2, if_pos h3] at h
          by_cases hc : 128 ≤ b ∧ b ≤ 191
          · rw [if_pos hc] at h
            simp [utf8Decode] at h
          · rw [if_neg hc] at h
            simp at h
        · by_cases h4 : a ≤ 239
          · rw [utf8Decode, if_neg h1, if_neg h2, if_neg h3, if_pos h4] at h
            by_cases hc : (if a = 224 then 160 else 128) ≤ b ∧ b ≤ (if a = 237 then 159 else 191)
            · rw [if_pos hc] at h
              simp at h
            · rw [if_neg hc] at h
              simp at h
          · by_cases h5 : a ≤ 244
            · rw [utf8Decode, if_neg h1, if_neg h2, if_neg h3, if_neg h4, if_pos h5] at h
              by_cases hc : (if a = 240 then 144 else 128) ≤ b ∧ b ≤ (if a = 244 then 143 else 191)
              · rw [if_pos hc] at h
                simp at h
              · rw [if_neg hc] at h
                simp at h
            · rw [utf8Decode, if_neg h1, if_neg h2, if_neg h3, if_neg h4, if_neg h5] at h
              simp at h
  · rintro ⟨rfl, rfl⟩
    decide

/-- A frame of at least 8 bytes whose prefix decodes to BE and whose
stored checksum string equals the computed CRC-32 string is never
rejected by createPacket, whatever its kind byte is. -/
theorem createPacket_ne_err (msg : List Nat) (h8 : ¬msg.length < 8)
    (hp : utf8Decode (msg.take 2) = [66, 69])
    (hc : utf8Decode ((msg.drop 2).take 4) = utf8Decode (crc32le (msg.drop 6))) :
    ∀ e, createPacket msg ≠ .err e := by
  intro e
  unfold createPacket
  rw [if_neg h8, if_neg (by simp [hp]), if_neg (by simp [hc])]
  dsimp only
  split
  · simp
  · split <;> simp

/-- Case analysis of createPacket: exactly one of four outcomes
happens, each under the branch condition the source tests. -/
theorem createPacket_cases (msg : List Nat) :
    (msg.length < 8 ∧ createPacket msg = .err .tooShort)
    ∨ (¬msg.length < 8 ∧ utf8Decode (msg.take 2) ≠ [66, 69]
        ∧ createPacket msg = .err .badPfx)
    ∨ (¬msg.length < 8 ∧ utf8Decode (msg.take 2) = [66, 69]
        ∧ utf8Decode ((msg.drop 2).take 4) ≠ utf8Decode (crc32le (msg.drop 6))
        ∧ createPacket msg = .err .badCrc)
    ∨ (¬msg.length < 8 ∧ utf8Decode (msg.take 2) = [66, 69]
        ∧ utf8Decode ((msg.drop 2).take 4) = utf8Decode (crc32le (msg.drop 6))
        ∧ ∀ e, createPacket msg ≠ .err e) := by
  by_cases h8 : msg.length < 8
  · exact Or.inl ⟨h8, by unfold createPacket; rw [if_pos h8]⟩
  · by_cases hp : utf8Decode (msg.take 2) = [66, 69]
    · by_cases hc : utf8Decode ((msg.drop 2).take 4) = utf8Decode (crc32le (msg.drop 6))
      · exact Or.inr (Or.inr (Or.inr ⟨h8, hp, hc, createPacket_ne_err msg h8 hp hc⟩))
      · refine Or.inr (Or.inr (Or.inl ⟨h8, hp, hc, ?_⟩))
        unfold createPacket
        rw [if_neg h8, if_neg (by simp [hp]), if_pos (by simpa using hc)]
    · refine Or.inr (Or.inl ⟨h8, hp, ?_⟩)
      unfold createPacket
      rw [if_neg h8, if_pos (by simpa using hp)]

/-- With at least two bytes in the frame, the decoded prefix string
equals BE exactly when the first two raw bytes are 0x42 0x45. -/
theorem utf8Decode_take_two (msg : List Nat) (h2 : 2 ≤ msg.length) :
    utf8Decode (msg.take 2) = [66, 69] ↔ msg.take 2 = [66, 69] := by
  rcases msg with _ | ⟨a, _ | ⟨b, rest⟩⟩
  · simp at h2
  · simp at h2
  · have ht : (a :: b :: rest).take 2 = [a, b] := by simp
    rw [ht, utf8Decode_pair_eq_BE]
    simp

/-- C3 (amended): classification of createPacket failures
(src/Arcon/packet.ts, lines 148 to 178). The decoder fails with
tooShort exactly when the buffer is shorter than 8 bytes; with badPfx
exactly when it is long enough but the first two bytes are not 0x42
0x45; with badCrc exactly when the prefix is fine but the stored
checksum string differs from the string of the computed CRC-32 (the
source compares lossy UTF-8 decodings of the byte buffers, not the
bytes themselves); and there is no unknown-kind failure at all: when
the stored checksum bytes equal the computed ones and the prefix is
right, the function returns a decoded frame whatever the kind byte is. -/
theorem c3_createPacket_error_classification (msg : List Nat) :
    (createPacket msg = .err .tooShort ↔ msg.length < 8)
    ∧ (createPacket msg = .err .badPfx ↔ 8 ≤ msg.length ∧ msg.take 2 ≠ [66, 69])
    ∧ (createPacket msg = .err .badCrc ↔ 8 ≤ msg.length ∧ msg.take 2 = [66, 69]
        ∧ utf8Decode ((msg.drop 2).take 4) ≠ utf8Decode (crc32le (msg.drop 6)))
    ∧ ((msg.drop 2).take 4 = crc32le (msg.drop 6) → 8 ≤ msg.length →
        msg.take 2 = [66, 69] → ∀ e, createPacket msg ≠ .err e) := by
  rcases createPacket_cases msg with ⟨h8, hres⟩ | ⟨h8, hp, hres⟩ | ⟨h8, hp, hc, hres⟩ |
    ⟨h8, hp, hc, hres⟩
  · refine ⟨iff_of_true hres h8, ?_, ?_, ?_⟩
    · refine iff_of_false (by simp [hres]) ?_
      rintro ⟨hlen, -⟩
      omega
    · refine iff_of_false (by simp [hres]) ?_
      rintro ⟨hlen, -, -⟩
      omega
    · intro _ hlen
      exact absurd hlen (by omega)
  · have hpb : ¬msg.take 2 = [66, 69] := fun hb =>
      hp ((utf8Decode_take_two msg (by omega)).mpr hb)
    refine ⟨iff_of_false (by simp [hres]) (by omega), iff_of_true hres ⟨by omega, hpb⟩,
      ?_, ?_⟩
    · refine iff_of_false (by simp [hres]) ?_
      rintro ⟨-, h2, -⟩
      exact hpb h2
    · intro _ _ hb
      exact absurd ((utf8Decode_take_two msg (by omega)).mpr hb) hp
  · have hpb : msg.take 2 = [66, 69] := (utf8Decode_take_two msg (by omega)).mp hp
    refine ⟨iff_of_false (by simp [hres]) (by omega), ?_,
      iff_of_true hres ⟨by omega, hpb, hc⟩, ?_⟩
    · refine iff_of_false (by simp [hres]) ?_
      rintro ⟨-, hne⟩
      exact hne hpb
    · intro hbytes _ _
      exact absurd (by rw [hbytes]) hc
  · have hpb : msg.take 2 = [66, 69] := (utf8Decode_take_two msg (by omega)).mp hp
    refine ⟨iff_of_false (hres .tooShort) (by omega), ?_, ?_, fun _ _ _ => hres⟩
    · refine iff_of_false (hres .badPfx) ?_
      rintro ⟨-, hne⟩
      exact hne hpb
    · refine iff_of_false (hres .badCrc) ?_
      rintro ⟨-, -, hne⟩
      exact hne hc

/-- C3 witness: the classification applied to a concrete valid frame,
showing a checksum-correct frame is not rejected. -/
theorem c3_createPacket_error_classification_witness :
    createPacket [66, 69, 255, 237, 217, 65, 255, 0, 0] ≠ .err .badCrc :=
  (c3_createPacket_error_classification [66, 69, 255, 237, 217, 65, 255, 0, 0]).2.2.2
    (by decide) (by decide) (by decide) .badCrc

/-- C3 counterexample: a checksum-valid frame whose kind byte is 5,
outside the set 0, 1, 2. The claim requires an UnknownKind failure, but
createPacket has no such check: the frame decodes to a whole packet of
type 5 with sequence 7, and no error of any kind is produced. -/
theorem c3_unknown_kind_accepted :
    createPacket [66, 69, 25, 140, 202, 162, 255, 5, 7] =
      .whole [25, 0xFFFD, 674] 5 (some 7) []
    ∧ ∀ e, createPacket [66, 69, 25, 140, 202, 162, 255, 5, 7] ≠ .err e := by
  constructor
  · decide
  · intro e
    cases e <;> decide

/-- The observable fields of a decoded frame: kind byte, sequence
(where present) and payload. Errors and parts carry none here. -/
def Parsed.fields : Parsed → Option (Nat × Option Nat × List Nat)
  | .err _ => none
  | .loginP _ d => some (0, none, d)
  | .whole _ t s d => some (t, s, d)
  | .part _ _ _ _ _ => none

/-- C6: encode-then-decode round trip for the three frame encoders of
src/Arcon/packet.ts. For any sequence below 256, any command payload
whose first byte is not 0x00 (a payload starting with 0x00 would
collide with the multi-part subheader on the wire, so such argument
tuples are not well formed), and any password, decoding the encoded
buffer yields no error and returns the original kind, sequence and
payload; the little-endian CRC-32 stored by the encoder validates on
decode. Commands are kind 1 with the payload, acks are kind 2 created
with null data, logins are kind 0 carrying the password bytes. -/
theorem c6_encode_decode_roundtrip (seq : Nat) (hs : seq < 256) (cmd pwd : List Nat)
    (hcmd : cmd.head? ≠ some 0) :
    (createPacket (packetToBuffer 1 seq (some cmd))).fields = some (1, some seq, cmd)
    ∧ (createPacket (packetToBuffer 2 seq none)).fields = some (2, some seq, [])
    ∧ (createPacket (loginToBuffer pwd)).fields = some (0, none, pwd) := by
  have hseq : seq % 256 = seq := Nat.mod_eq_of_lt hs
  have hBE : utf8Decode [66, 69] = [66, 69] := by decide
  refine ⟨?_, ?_, ?_⟩
  · simp only [packetToBuffer, crc32le, hseq]
    unfold createPacket
    rw [if_neg (by simp)]
    rw [if_neg (by simp [hBE])]
    rw [if_neg (by simp [crc32le])]
    dsimp only
    simp [List.getD_cons_succ, List.getD_cons_zero, hcmd, Parsed.fields]
  · simp only [packetToBuffer, crc32le, hseq]
    unfold createPacket
    rw [if_neg (by simp)]
    rw [if_neg (by simp [hBE])]
    rw [if_neg (by simp [crc32le])]
    dsimp only
    simp [List.getD_cons_succ, List.getD_cons_zero, Parsed.fields]
  · simp only [loginToBuffer, crc32le]
    unfold createPacket
    rw [if_neg (by simp)]
    rw [if_neg (by simp [hBE])]
    rw [if_neg (by simp [crc32le])]
    dsimp only
    simp [List.getD_cons_succ, List.getD_cons_zero, Parsed.fields]

/-- C6 witness: the round trip instantiated with sequence 3, the
command players and the password secret. -/
theorem c6_encode_decode_roundtrip_witness :
    3 < 256
    ∧ ([112, 108, 97, 121, 101, 114, 115] : List Nat).head? ≠ some 0
    ∧ ((createPacket (packetToBuffer 1 3 (some [112, 108, 97, 121, 101, 114, 115]))).fields =
          some (1, some 3, [112, 108, 97, 121, 101, 114, 115])
        ∧ (createPacket (packetToBuffer 2 3 none)).fields = some (2, some 3, [])
        ∧ (createPacket (loginToBuffer [115, 101, 99, 114, 101, 116])).fields =
          some (0, none, [115, 101, 99, 114, 101, 116])) :=
  ⟨by decide, by decide,
    c6_encode_decode_roundtrip 3 (by decide) [112, 108, 97, 121, 101, 114, 115]
      [115, 101, 99, 114, 101, 116] (by decide)⟩

/-- One fragment of a multi-part command response, as parsed by
createPacket: the CommandPacketPart fields used by the reassembler. -/
structure CmdPart where
  sequence : Nat
  totalPackets : Nat
  packetIndex : Nat
  data : List Nat
deriving DecidableEq, Repr

/-- The comparator of the reassembler sort, from
parts.sort((a, b) => a.packetIndex - b.packetIndex) in
src/Arcon/index.ts; JS sort is stable, hence the stable mergeSort. -/
def partLe (a b : CmdPart) : Bool :=
  decide (a.packetIndex ≤ b.packetIndex)

/-- One step of the reassembler in Arcon handleCommandPacket
(src/Arcon/index.ts, lines 257 to 308), restricted to part packets.
The state is the packetParts array in arrival order. A duplicate
(sequence, packetIndex) pair is dropped; otherwise the part is pushed,
the parts of the same sequence are collected, and when their count
reaches totalPackets the parts are sorted by packetIndex and their
data concatenated. A nonempty assembly empties the stored parts and is
delivered; an empty assembly is discarded by the heartbeat guard and
leaves the stored parts in place. -/
def partStep (st : List CmdPart) (p : CmdPart) : List CmdPart × Option (List Nat) :=
  if st.any (fun q => decide (p.sequence = q.sequence) && decide (p.packetIndex = q.packetIndex)) then
    (st, none)
  else
    let st2 := st ++ [p]
    let parts := st2.filter (fun q => decide (p.sequence = q.sequence))
    if p.totalPackets = parts.length then
      let data := ((parts.mergeSort partLe).map (fun q => q.data)).flatten
      if data.length ≠ 0 then ([], some data) else (st2, none)
    else (st2, none)

/-- Run the reassembler over a list of arriving parts, returning the
final stored-parts state and the list of assembled payloads delivered. -/
def runP (st : List CmdPart) : List CmdPart → List CmdPart × List (List Nat)
  | [] => (st, [])
  | p :: ps =>
    let r := partStep st p
    let rest := runP r.1 ps
    (rest.1, r.2.toList ++ rest.2)

/-- Run the reassembler from the empty state. -/
def runParts (arrival : List CmdPart) : List CmdPart × List (List Nat) :=
  runP [] arrival

/-- The parts of a multi-part response: part i carries payload i, the
declared total and the shared sequence. -/
def mkParts (seq total : Nat) : Nat → List (List Nat) → List CmdPart
  | _, [] => []
  | i, d :: ds => ⟨seq, total, i, d⟩ :: mkParts seq total (i + 1) ds

/-- The canonical parts of a response split into the given payloads. -/
def canonicalParts (seq : Nat) (payloads : List (List Nat)) : List CmdPart :=
  mkParts seq payloads.length 0 payloads

theorem length_mkParts (seq total i : Nat) (ds : List (List Nat)) :
    (mkParts seq total i ds).length = ds.length := by
  induction ds generalizing i with
  | nil => rfl
  | cons d ds ih => simp [mkParts, ih]

theorem map_data_mkParts (seq total i : Nat) (ds : List (List Nat)) :
    (mkParts seq total i ds).map (fun q => q.data) = ds := by
  induction ds generalizing i with
  | nil => rfl
  | cons d ds ih => simp [mkParts, ih]

theorem mem_mkParts (seq total i : Nat) (ds : List (List Nat)) :
    ∀ p ∈ mkParts seq total i ds,
      p.sequence = seq ∧ p.totalPackets = total ∧ i ≤ p.packetIndex
        ∧ p.packetIndex < i + ds.length := by
  induction ds generalizing i with
  | nil => simp [mkParts]
  | cons d ds ih =>
    intro p hp
    rcases (List.mem_cons).mp hp with h | h
    · subst h
      refine ⟨rfl, rfl, le_refl _, ?_⟩
      simp
    · obtain ⟨h1, h2, h3, h4⟩ := ih (i + 1) p h
      refine ⟨h1, h2, by omega, ?_⟩
      simp only [List.length_cons]
      omega

theorem pairwise_lt_mkParts (seq total i : Nat) (ds : List (List Nat)) :
    (mkParts seq total i ds).Pairwise (fun a b => a.packetIndex < b.packetIndex) := by
  induction ds generalizing i with
  | nil => simp [mkParts]
  | cons d ds ih =>
    refine List.Pairwise.cons ?_ (ih (i + 1))
    intro q hq
    have := (mem_mkParts seq total (i + 1) ds q hq).2.2.1
    simpa using by omega

/-- Two lists that are permutations of each other and both strictly
sorted on packetIndex are equal. -/
theorem eq_of_perm_of_strict_sorted (l₁ l₂ : List CmdPart) (hp : l₁.Perm l₂)
    (h1 : l₁.Pairwise (fun a b => a.packetIndex < b.packetIndex))
    (h2 : l₂.Pairwise (fun a b => a.packetIndex < b.packetIndex)) : l₁ = l₂ := by
  haveI : IsAntisymm CmdPart (fun a b => a.packetIndex < b.packetIndex) :=
    ⟨fun a b hab hba => absurd (Nat.lt_trans hab hba) (Nat.lt_irrefl _)⟩
  exact List.eq_of_perm_of_sorted hp h1 h2

/-- A duplicate-free index multiset sorts to a strictly increasing
sequence under the reassembler comparator. -/
theorem mergeSort_strict_of_nodup (l : List CmdPart)
    (hnd : (l.map (fun q => q.packetIndex)).Nodup) :
    (l.mergeSort partLe).Pairwise (fun a b => a.packetIndex < b.packetIndex) := by
  have hsorted : (l.mergeSort partLe).Pairwise (fun a b => partLe a b) :=
    List.sorted_mergeSort
      (fun a b c h1 h2 => by
        simp only [partLe, decide_eq_true_eq] at *
        omega)
      (fun a b => by
        simp only [partLe]
        rcases Nat.le_total a.packetIndex b.packetIndex with h | h <;> simp [h])
      l
  have hperm : List.Perm ((l.mergeSort partLe).map (fun q => q.packetIndex))
      (l.map (fun q => q.packetIndex)) := (List.mergeSort_perm l partLe).map _
  have hnd2 : ((l.mergeSort partLe).map (fun q => q.packetIndex)).Nodup :=
    (hperm.nodup_iff).mpr hnd
  have hne : (l.mergeSort partLe).Pairwise (fun a b => a.packetIndex ≠ b.packetIndex) :=
    List.pairwise_map.mp hnd2
  exact (hsorted.and hne).imp fun h => by
    obtain ⟨h1, h2⟩ := h
    simp only [partLe, decide_eq_true_eq] at h1
    omega

/-- A part that is not a duplicate, shares its sequence with the whole
stored state and does not complete the response is pushed with no
delivery. -/
theorem partStep_no_emit (st : List CmdPart) (p : CmdPart)
    (hidx : ∀ q ∈ st, q.packetIndex ≠ p.packetIndex)
    (hseq : ∀ q ∈ st, q.sequence = p.sequence)
    (htot : p.totalPackets ≠ st.length + 1) :
    partStep st p = (st ++ [p], none) := by
  unfold partStep
  rw [if_neg (by
    simp only [List.any_eq_true, not_exists]
    rintro q
    simp only [Bool.and_eq_true, decide_eq_true_eq, not_and]
    intro hq h1 h2
    exact hidx q hq h2.symm)]
  have hfilter : (st ++ [p]).filter (fun q => decide (p.sequence = q.sequence)) = st ++ [p] := by
    apply List.filter_eq_self.mpr
    intro q hq
    rcases List.mem_append.mp hq with h | h
    · simp [(hseq q h).symm]
    · simp only [List.mem_singleton] at h
      simp [h]
  rw [if_neg (by
    simp only [hfilter, List.length_append, List.length_cons, List.length_nil]
    omega)]

/-- A part that completes the response: the parts are sorted by index,
their payloads are concatenated, and when nonempty the assembly is
delivered and the stored parts are emptied. -/
theorem partStep_emit (st : List CmdPart) (p : CmdPart)
    (hidx : ∀ q ∈ st, q.packetIndex ≠ p.packetIndex)
    (hseq : ∀ q ∈ st, q.sequence = p.sequence)
    (htot : p.totalPackets = st.length + 1)
    (hdata : (((st ++ [p]).mergeSort partLe).map (fun q => q.data)).flatten ≠ []) :
    partStep st p = ([], some ((((st ++ [p]).mergeSort partLe).map (fun q => q.data)).flatten)) := by
  unfold partStep
  rw [if_neg (by
    simp only [List.any_eq_true, not_exists]
    rintro q
    simp only [Bool.and_eq_true, decide_eq_true_eq, not_and]
    intro hq h1 h2
    exact hidx q hq h2.symm)]
  have hfilter : (st ++ [p]).filter (fun q => decide (p.sequence = q.sequence)) = st ++ [p] := by
    apply List.filter_eq_self.mpr
    intro q hq
    rcases List.mem_append.mp hq with h | h
    · simp [(hseq q h).symm]
    · simp only [List.mem_singleton] at h
      simp [h]
  rw [if_pos (by
    simp only [hfilter, List.length_append, List.length_cons, List.length_nil]
    omega)]
  simp only [hfilter]
  rw [if_pos (fun h => hdata (List.length_eq_zero.mp h))]

/-- Splitting a run of the reassembler at a list append. -/
theorem runP_append (st : List CmdPart) (l1 l2 : List CmdPart) :
    runP st (l1 ++ l2) =
      ((runP (runP st l1).1 l2).1, (runP st l1).2 ++ (runP (runP st l1).1 l2).2) := by
  induction l1 generalizing st with
  | nil => simp [runP]
  | cons p ps ih =>
    simp only [List.cons_append, runP, List.append_eq]
    rw [ih]
    simp [List.append_assoc]

/-- In a list with duplicate-free packet indices, the parts taken
before position k all differ in index from the part at position k. -/
theorem take_idx_ne (l : List CmdPart) (hnd : (l.map (fun q => q.packetIndex)).Nodup)
    (k : Nat) (hk : k < l.length) :
    ∀ q ∈ l.take k, q.packetIndex ≠ (l[k]).packetIndex := by
  intro q hq
  have hsplit : l = l.take k ++ l[k] :: l.drop (k + 1) := by
    conv_lhs => rw [← List.take_append_drop k l]
    rw [List.drop_eq_getElem_cons hk]
  have hmap : l.map (fun q => q.packetIndex) =
      (l.take k).map (fun q => q.packetIndex) ++
        (l[k]).packetIndex :: (l.drop (k + 1)).map (fun q => q.packetIndex) := by
    conv_lhs => rw [hsplit]
    simp only [List.map_append, List.map_cons]
  rw [hmap] at hnd
  obtain ⟨-, -, hdisj⟩ := List.nodup_append.mp hnd
  intro he
  exact hdisj (List.mem_map_of_mem _ hq) (by rw [he]; exact List.mem_cons_self _ _)

/-- Running the reassembler over any proper prefix of a permutation of
the canonical parts stores those parts and delivers nothing. -/
theorem runParts_take_lt (seq : Nat) (payloads : List (List Nat)) (arrival : List CmdPart)
    (hperm : arrival.Perm (canonicalParts seq payloads)) :
    ∀ k, k ≤ arrival.length → k < payloads.length →
      runParts (arrival.take k) = (arrival.take k, []) := by
  have hmem : ∀ p ∈ arrival, p.sequence = seq ∧ p.totalPackets = payloads.length := by
    intro p hp
    obtain ⟨h1, h2, -, -⟩ := mem_mkParts seq payloads.length 0 payloads p (hperm.mem_iff.mp hp)
    exact ⟨h1, h2⟩
  have hndc : ((canonicalParts seq payloads).map (fun q => q.packetIndex)).Nodup :=
    List.pairwise_map.mpr
      ((pairwise_lt_mkParts seq payloads.length 0 payloads).imp fun h => Nat.ne_of_lt h)
  have hnd : (arrival.map (fun q => q.packetIndex)).Nodup :=
    ((hperm.map _).nodup_iff).mpr hndc
  intro k
  induction k with
  | zero =>
    intro _ _
    rfl
  | succ k ih =>
    intro hk1 hkN
    have hk : k < arrival.length := by omega
    have hstep := ih (by omega) (by omega)
    have htake : arrival.take (k + 1) = arrival.take k ++ [arrival[k]] := by
      rw [List.take_succ, List.getElem?_eq_getElem hk]
      rfl
    have hlenk : (arrival.take k).length = k := by
      rw [List.length_take]
      omega
    have hno := partStep_no_emit (arrival.take k) (arrival[k])
      (take_idx_ne arrival hnd k hk)
      (fun q hq => by
        rw [(hmem q (List.take_subset k arrival hq)).1,
          (hmem (arrival[k]) (List.getElem_mem hk)).1])
      (by
        rw [(hmem (arrival[k]) (List.getElem_mem hk)).2, hlenk]
        omega)
    rw [htake]
    unfold runParts at *
    rw [runP_append, hstep]
    simp [runP, hno]

/-- C2: a multi-part command response split into N distinct parts is
assembled identically under every arrival order. For any list of
part payloads with a nonempty concatenation (an all-empty assembly is
discarded as a heartbeat by the source guard) and any permutation of
the canonical parts, the reassembler of Arcon handleCommandPacket
delivers exactly one payload, namely the concatenation of the part
payloads in increasing packetIndex order, it delivers it at the moment
the last missing part arrives, and every proper prefix of the arrival
order delivers nothing. -/
theorem c2_reassembly_perm_invariant (seq : Nat) (payloads : List (List Nat))
    (arrival : List CmdPart) (hperm : arrival.Perm (canonicalParts seq payloads))
    (hne : payloads.flatten ≠ []) :
    (runParts arrival).2 = [payloads.flatten]
    ∧ ∀ k < arrival.length, (runParts (arrival.take k)).2 = [] := by
  have hmem : ∀ p ∈ arrival, p.sequence = seq ∧ p.totalPackets = payloads.length := by
    intro p hp
    obtain ⟨h1, h2, -, -⟩ := mem_mkParts seq payloads.length 0 payloads p (hperm.mem_iff.mp hp)
    exact ⟨h1, h2⟩
  have hndc : ((canonicalParts seq payloads).map (fun q => q.packetIndex)).Nodup :=
    List.pairwise_map.mpr
      ((pairwise_lt_mkParts seq payloads.length 0 payloads).imp fun h => Nat.ne_of_lt h)
  have hnd : (arrival.map (fun q => q.packetIndex)).Nodup :=
    ((hperm.map _).nodup_iff).mpr hndc
  have hlen : arrival.length = payloads.length := by
    rw [hperm.length_eq]
    simp [canonicalParts, length_mkParts]
  have hpos : 0 < payloads.length := by
    rcases payloads with - | ⟨d, ds⟩
    · simp at hne
    · simp
  constructor
  · have hk : payloads.length - 1 < arrival.length := by omega
    have htake : arrival.take (payloads.length - 1) ++ [arrival[payloads.length - 1]] =
        arrival := by
      have h1 : arrival.take (payloads.length - 1 + 1) =
          arrival.take (payloads.length - 1) ++ [arrival[payloads.length - 1]] := by
        rw [List.take_succ, List.getElem?_eq_getElem hk]
        rfl
      rw [← h1, show payloads.length - 1 + 1 = payloads.length from by omega, ← hlen,
        List.take_length]
    have hpre := runParts_take_lt seq payloads arrival hperm (payloads.length - 1)
      (by omega) (by omega)
    have hlenk : (arrival.take (payloads.length - 1)).length = payloads.length - 1 := by
      rw [List.length_take]
      omega
    have hsort : ((arrival.take (payloads.length - 1) ++ [arrival[payloads.length - 1]]).mergeSort
        partLe) = canonicalParts seq payloads := by
      rw [htake]
      exact eq_of_perm_of_strict_sorted _ _ ((List.mergeSort_perm arrival partLe).trans hperm)
        (mergeSort_strict_of_nodup arrival hnd)
        (pairwise_lt_mkParts seq payloads.length 0 payloads)
    have hdataeq : (((arrival.take (payloads.length - 1) ++
        [arrival[payloads.length - 1]]).mergeSort partLe).map (fun q => q.data)).flatten =
        payloads.flatten := by
      rw [hsort]
      rw [canonicalParts, map_data_mkParts]
    have hemit := partStep_emit (arrival.take (payloads.length - 1))
      (arrival[payloads.length - 1])
      (take_idx_ne arrival hnd (payloads.length - 1) hk)
      (fun q hq => by
        rw [(hmem q (List.take_subset _ arrival hq)).1,
          (hmem (arrival[payloads.length - 1]) (List.getElem_mem hk)).1])
      (by
        rw [(hmem (arrival[payloads.length - 1]) (List.getElem_mem hk)).2, hlenk]
        omega)
      (by rw [hdataeq]; exact hne)
    conv_lhs => rw [← htake]
    unfold runParts at *
    rw [runP_append, hpre]
    simp only [runP, hemit, Option.toList_some, List.append_nil, List.nil_append]
    rw [hdataeq]
  · intro k hk
    rw [runParts_take_lt seq payloads arrival hperm k (by omega) (by omega)]

/-- C2 witness: the two parts of the response hello world for sequence
7 arriving in reverse index order, as in scenario S4 of the spec. -/
theorem c2_reassembly_perm_invariant_witness :
    ([⟨7, 2, 1, [32, 119, 111, 114, 108, 100]⟩,
        ⟨7, 2, 0, [104, 101, 108, 108, 111]⟩] : List CmdPart).Perm
      (canonicalParts 7 [[104, 101, 108, 108, 111], [32, 119, 111, 114, 108, 100]])
    ∧ ([[104, 101, 108, 108, 111], [32, 119, 111, 114, 108, 100]] : List (List Nat)).flatten ≠ []
    ∧ ((runParts [⟨7, 2, 1, [32, 119, 111, 114, 108, 100]⟩,
          ⟨7, 2, 0, [104, 101, 108, 108, 111]⟩]).2 =
        [[[104, 101, 108, 108, 111], [32, 119, 111, 114, 108, 100]].flatten]
      ∧ ∀ k < ([⟨7, 2, 1, [32, 119, 111, 114, 108, 100]⟩,
          ⟨7, 2, 0, [104, 101, 108, 108, 111]⟩] : List CmdPart).length,
          (runParts (([⟨7, 2, 1, [32, 119, 111, 114, 108, 100]⟩,
            ⟨7, 2, 0, [104, 101, 108, 108, 111]⟩] : List CmdPart).take k)).2 = []) :=
  ⟨by decide, by decide,
    c2_reassembly_perm_invariant 7 [[104, 101, 108, 108, 111], [32, 119, 111, 114, 108, 100]]
      [⟨7, 2, 1, [32, 119, 111, 114, 108, 100]⟩, ⟨7, 2, 0, [104, 101, 108, 108, 111]⟩]
      (by decide) (by decide)⟩

/-- A character class: inclusive code-point ranges, possibly negated. -/
structure CClass where
  ranges : List (Nat × Nat)
  neg : Bool
deriving DecidableEq, Repr

/-- Membership of a code point in a character class. -/
def CClass.test (c : CClass) (ch : Nat) : Bool :=
  let inR := c.ranges.any (fun r => decide (r.1 ≤ ch) && decide (ch ≤ r.2))
  if c.neg then !inR else inR

/-- Abstract syntax of the JS regexes used by the client. Quantifiers
only ever apply to single-character classes in those patterns, so star,
lazy star and counted repetition are restricted to classes; endA is the
dollar assertion without the m flag (end of input) and eolM with it
(end of input or immediately before a line feed). -/
inductive Reg where
  | eps
  | cls (c : CClass)
  | seq (a b : Reg)
  | alt (a b : Reg)
  | starG (c : CClass)
  | starL (c : CClass)
  | repN (n : Nat) (c : CClass)
  | grp (i : Nat) (r : Reg)
  | endA
  | eolM
deriving Repr

/-- Captured groups: group index paired with the captured code points,
most recent first. -/
abbrev Caps := List (Nat × List Nat)

/-- Look up a capture group; none models an undefined JS group. -/
def getCap (caps : Caps) (i : Nat) : Option (List Nat) :=
  (List.find? (fun e => decide (e.1 = i)) caps).map (fun e => e.2)

/-- Capture group contents with the empty string for absent groups. -/
def getCapD (caps : Caps) (i : Nat) : List Nat :=
  (getCap caps i).getD []

/-- Greedy repetition of a single-character class: consume as many
characters as possible, backtracking one at a time. -/
def starGoG (c : CClass) : List Nat → Caps → (List Nat → Caps → Option (Caps × List Nat)) →
    Option (Caps × List Nat)
  | [], caps, k => k [] caps
  | ch :: rest, caps, k =>
    if c.test ch then (starGoG c rest caps k) <|> k (ch :: rest) caps
    else k (ch :: rest) caps

/-- Lazy repetition of a single-character class: consume as few
characters as possible. -/
def starGoL (c : CClass) : List Nat → Caps → (List Nat → Caps → Option (Caps × List Nat)) →
    Option (Caps × List Nat)
  | s, caps, k =>
    (k s caps) <|>
      (match s with
       | [] => none
       | ch :: rest => if c.test ch then starGoL c rest caps k else none)

/-- Exactly n repetitions of a single-character class. -/
def repGo (c : CClass) : Nat → List Nat → Caps → (List Nat → Caps → Option (Caps × List Nat)) →
    Option (Caps × List Nat)
  | 0, s, caps, k => k s caps
  | n + 1, s, caps, k =>
    match s with
    | [] => none
    | ch :: rest => if c.test ch then repGo c n rest caps k else none

/-- Backtracking matcher in continuation-passing style, exploring
alternatives in JS priority order (left alternative first, greedy
longest first, lazy shortest first). The continuation receives the
remaining input and the captures accumulated so far. -/
def mA : Reg → List Nat → Caps → (List Nat → Caps → Option (Caps × List Nat)) →
    Option (Caps × List Nat)
  | .eps, s, caps, k => k s caps
  | .cls c, s, caps, k =>
    match s with
    | [] => none
    | ch :: rest => if c.test ch then k rest caps else none
  | .seq a b, s, caps, k => mA a s caps (fun s2 caps2 => mA b s2 caps2 k)
  | .alt a b, s, caps, k => (mA a s caps k) <|> (mA b s caps k)
  | .starG c, s, caps, k => starGoG c s caps k
  | .starL c, s, caps, k => starGoL c s caps k
  | .repN n c, s, caps, k => repGo c n s caps k
  | .grp i r, s, caps, k =>
    mA r s caps (fun s2 caps2 => k s2 ((i, s.take (s.length - s2.length)) :: caps2))
  | .endA, s, caps, k =>
    match s with
    | [] => k s caps
    | _ :: _ => none
  | .eolM, s, caps, k =>
    match s with
    | [] => k s caps
    | ch :: _ => if ch = 10 then k s caps else none

/-- Match the pattern at the current position, returning captures and
the remaining input after the match. -/
def matchRet (r : Reg) (s : List Nat) : Option (Caps × List Nat) :=
  mA r s [] (fun rest caps => some (caps, rest))

/-- A JS regex as used by the client: a body pattern, whether the
source pattern is anchored with a caret, and the m flag. -/
structure JsRegex where
  anchored : Bool
  multiline : Bool
  body : Reg

/-- Leftmost search honouring the anchoring mode. The Boolean argument
records whether the current position satisfies the caret assertion
(start of input, or for multiline patterns right after a line feed).
Returns the suffix at the match start, the captures and the rest. -/
def findMatch (re : JsRegex) : List Nat → Bool → Option (List Nat × Caps × List Nat)
  | s, allowed =>
    match (if !re.anchored || allowed then matchRet re.body s else none) with
    | some (caps, rest) => some (s, caps, rest)
    | none =>
      match s with
      | [] => none
      | ch :: rest2 =>
        findMatch re rest2 (if re.multiline then decide (ch = 10) else false)

/-- JS RegExp.prototype.test on a whole payload. -/
def jsTest (re : JsRegex) (s : List Nat) : Bool :=
  (findMatch re s true).isSome

/-- JS String.prototype.match: captures of the leftmost match. -/
def jsMatch (re : JsRegex) (s : List Nat) : Option Caps :=
  (findMatch re s true).map (fun r => r.2.1)

/-- Successive matches for String.prototype.matchAll: after each match
the search resumes at the match end (one character later for an empty
match), with fuel to guarantee termination. -/
def matchAllGo (re : JsRegex) : Nat → List Nat → Bool → List Caps
  | 0, _, _ => []
  | fuel + 1, s, allowed =>
    match findMatch re s allowed with
    | none => []
    | some (start, caps, rest) =>
      let consumed := start.take (start.length - rest.length)
      if consumed.isEmpty then
        match rest with
        | [] => [caps]
        | ch :: rest2 =>
          caps :: matchAllGo re fuel rest2 (if re.multiline then decide (ch = 10) else false)
      else
        caps :: matchAllGo re fuel rest
          (if re.multiline then decide (consumed.getLast? = some 10) else false)

/-- JS String.prototype.matchAll over a whole payload. -/
def matchAll (re : JsRegex) (s : List Nat) : List Caps :=
  matchAllGo re (s.length + 1) s true

/-- Code points of a Lean string literal, for payload literals. -/
def str2cp (s : String) : List Nat :=
  s.data.map Char.toNat

/-- Sequence of several patterns. -/
def seqAll (l : List Reg) : Reg :=
  l.foldr .seq .eps

/-- A literal string pattern. -/
def litR (s : String) : Reg :=
  seqAll (s.data.map (fun ch => Reg.cls ⟨[(ch.toNat, ch.toNat)], false⟩))

/-- A literal pattern under the i flag: each ASCII letter matches both
cases. -/
def litCI (s : String) : Reg :=
  seqAll (s.data.map (fun ch =>
    if 97 ≤ ch.toNat ∧ ch.toNat ≤ 122 then
      Reg.cls ⟨[(ch.toNat, ch.toNat), (ch.toNat - 32, ch.toNat - 32)], false⟩
    else if 65 ≤ ch.toNat ∧ ch.toNat ≤ 90 then
      Reg.cls ⟨[(ch.toNat, ch.toNat), (ch.toNat + 32, ch.toNat + 32)], false⟩
    else Reg.cls ⟨[(ch.toNat, ch.toNat)], false⟩))

/-- JS digit class for backslash d. -/
def digitC : CClass := ⟨[(48, 57)], false⟩

/-- The bracket class of digits and dots used for IP addresses. -/
def ipC : CClass := ⟨[(48, 57), (46, 46)], false⟩

/-- The bracket class a to z or 0 to 9 used for GUIDs. -/
def hexC : CClass := ⟨[(97, 122), (48, 57)], false⟩

/-- The bracket class of ASCII letters. -/
def alphaC : CClass := ⟨[(97, 122), (65, 90)], false⟩

/-- The bracket class of ASCII letters and the space. -/
def alphaSpC : CClass := ⟨[(97, 122), (65, 90), (32, 32)], false⟩

/-- JS dot without the s flag: any character except line terminators. -/
def dotC : CClass := ⟨[(10, 10), (13, 13), (8232, 8233)], true⟩

/-- JS dot under the s flag: any character. -/
def dotAllC : CClass := ⟨[], true⟩

/-- JS whitespace class for backslash s. -/
def wsC : CClass :=
  ⟨[(9, 13), (32, 32), (160, 160), (5760, 5760), (8192, 8202), (8232, 8233), (8239, 8239),
    (8287, 8287), (12288, 12288), (65279, 65279)], false⟩

/-- The bracket class minus or digit used for the ping column. -/
def negPingC : CClass := ⟨[(45, 45), (48, 57)], false⟩

/-- Greedy plus over a class. -/
def plusG (c : CClass) : Reg := .seq (.cls c) (.starG c)

/-- Lazy plus over a class. -/
def plusL (c : CClass) : Reg := .seq (.cls c) (.starL c)

/-- The regexes object of src/Arcon/index.ts, lines 148 to 172, one
definition per key, in source order below in regexList. -/
def rePlayerConnected : JsRegex :=
  ⟨true, false, seqAll [litR "Player #", .grp 1 (plusG digitC), litR " ",
    .grp 2 (.starG dotC), litR " (", .grp 3 (plusG ipC), litR ":", plusG digitC,
    litR ") connected", .endA]⟩

/-- Pattern playerGuidCalculated of the regexes object. -/
def rePlayerGuidCalculated : JsRegex :=
  ⟨true, false, seqAll [litR "Player #", .grp 1 (plusG digitC), litR " ",
    .grp 2 (.starG dotC), litR " BE GUID: ", .grp 3 (.repN 32 hexC), .endA]⟩

/-- Pattern playerGuidVerified of the regexes object. -/
def rePlayerGuidVerified : JsRegex :=
  ⟨true, false, seqAll [litR "Verified GUID (", .grp 1 (.repN 32 hexC),
    litR ") of player #", .grp 2 (plusG digitC), litR " ", .grp 3 (.starG dotC), .endA]⟩

/-- Pattern playerDisconnected of the regexes object. -/
def rePlayerDisconnected : JsRegex :=
  ⟨true, false, seqAll [litR "Player #", .grp 1 (plusG digitC), litR " ",
    .grp 2 (.starG dotC), litR " disconnected", .endA]⟩

/-- Pattern playerKicked of the regexes object. -/
def rePlayerKicked : JsRegex :=
  ⟨true, false, seqAll [litR "Player #", .grp 1 (plusG digitC), litR " ",
    .grp 2 (.starG dotC), litR " (", .alt (.repN 32 hexC) (litR "-"),
    litR ") has been kicked by BattlEye: ", .grp 3 (plusG dotC), .endA]⟩

/-- Pattern beLog of the regexes object, with the s flag. -/
def reBeLog : JsRegex :=
  ⟨true, false, seqAll [.grp 1 (plusG alphaSpC), litR " Log: #", .grp 2 (plusG digitC),
    litR " ", .grp 3 (.starG dotAllC), litR " (", .grp 4 (.repN 32 hexC), litR ") - #",
    .grp 5 (plusG digitC), litR " ", .grp 6 (plusG dotAllC), .endA]⟩

/-- Pattern playerMessage of the regexes object. -/
def rePlayerMessage : JsRegex :=
  ⟨true, false, seqAll [litR "(", .grp 1 (plusG alphaC), litR ") ",
    .grp 2 (plusG dotC), .endA]⟩

/-- Pattern adminMessage of the regexes object; it has no caret. -/
def reAdminMessage : JsRegex :=
  ⟨false, false, seqAll [litR "RCon admin #", .grp 1 (plusG digitC), litR ": (",
    .grp 2 (plusL dotC), litR ") ", .grp 3 (plusG dotC), .endA]⟩

/-- Advisory pattern banCheckTimeout. -/
def reBanCheckTimeout : JsRegex :=
  ⟨false, false, litR "Ban check timed out, no response from BE Master"⟩

/-- Advisory pattern masterQueryTimeout. -/
def reMasterQueryTimeout : JsRegex :=
  ⟨false, false, litR "Master query timed out, no response from BE Master"⟩

/-- Advisory pattern connectedToBeMaster. -/
def reConnectedToBeMaster : JsRegex :=
  ⟨false, false, litR "Connected to BE Master"⟩

/-- Advisory pattern disconnectedFromBeMaster. -/
def reDisconnectedFromBeMaster : JsRegex :=
  ⟨false, false, litR "Disconnected from BE Master"⟩

/-- Advisory pattern connectionFailedBeMaster. -/
def reConnectionFailedBeMaster : JsRegex :=
  ⟨false, false, litR "Could not connect to BE Master"⟩

/-- Advisory pattern beMasterFailedToReceive. -/
def reBeMasterFailedToReceive : JsRegex :=
  ⟨false, false, seqAll [litR "Failed to receive from BE Master (", plusG dotC, litR ")"]⟩

/-- Advisory pattern unknownCommand. -/
def reUnknownCommand : JsRegex :=
  ⟨false, false, litR "Unknown command"⟩

/-- Advisory pattern filterKickDisabled, with the i flag; the dot after
scans is an unescaped regex dot in the source. -/
def reFilterKickDisabled : JsRegex :=
  ⟨false, false, seqAll [litCI "Warning: Disabled kicking for ", .grp 1 (plusG dotC),
    litCI " scans", .cls dotC, litR " ", .grp 2 (plusG dotC)]⟩

/-- Advisory pattern eventLogError. -/
def reEventLogError : JsRegex :=
  ⟨false, false, litR "Failed to open event log file"⟩

/-- Command-response pattern playerList, with the g and m flags. -/
def rePlayerList : JsRegex :=
  ⟨true, true, seqAll [
    .grp 1 (plusG digitC), plusG wsC, .grp 2 (plusG ipC), litR ":", plusG digitC,
    plusG wsC, .grp 3 (plusG negPingC), plusG wsC,
    .grp 4 (.alt (.repN 32 hexC) (litR "-")),
    .alt (seqAll [litR "(", .grp 5 (.alt (litR "?") (litR "OK")), litR ")"]) .eps,
    plusG wsC, .grp 6 (plusL dotC),
    .alt (seqAll [litR " (", .grp 7 (litR "Lobby"), litR ")", .eolM]) .eolM]⟩

/-- Command-response pattern missions, with the g and m flags. -/
def reMissions : JsRegex :=
  ⟨false, true, .grp 1 (seqAll [plusG dotC, litR ".pbo", .eolM])⟩

/-- The keys of the regexes object, in declaration order. -/
inductive MsgType where
  | playerConnected
  | playerGuidCalculated
  | playerGuidVerified
  | playerDisconnected
  | playerKicked
  | beLog
  | playerMessage
  | adminMessage
  | banCheckTimeout
  | masterQueryTimeout
  | connectedToBeMaster
  | disconnectedFromBeMaster
  | connectionFailedBeMaster
  | beMasterFailedToReceive
  | unknownCommand
  | filterKickDisabled
  | eventLogError
  | playerList
  | missions
deriving DecidableEq, Repr

/-- The regexes object as the ordered association list that
Object.entries iterates over in Arcon getMessageType. -/
def regexList : List (MsgType × JsRegex) :=
  [(.playerConnected, rePlayerConnected),
   (.playerGuidCalculated, rePlayerGuidCalculated),
   (.playerGuidVerified, rePlayerGuidVerified),
   (.playerDisconnected, rePlayerDisconnected),
   (.playerKicked, rePlayerKicked),
   (.beLog, reBeLog),
   (.playerMessage, rePlayerMessage),
   (.adminMessage, reAdminMessage),
   (.banCheckTimeout, reBanCheckTimeout),
   (.masterQueryTimeout, reMasterQueryTimeout),
   (.connectedToBeMaster, reConnectedToBeMaster),
   (.disconnectedFromBeMaster, reDisconnectedFromBeMaster),
   (.connectionFailedBeMaster, reConnectionFailedBeMaster),
   (.beMasterFailedToReceive, reBeMasterFailedToReceive),
   (.unknownCommand, reUnknownCommand),
   (.filterKickDisabled, reFilterKickDisabled),
   (.eventLogError, reEventLogError),
   (.playerList, rePlayerList),
   (.missions, reMissions)]

/-- Shallow embedding of Arcon getMessageType (src/Arcon/index.ts,
lines 248 to 255): the key of the first regex in declaration order
whose test accepts the payload, none when no pattern matches. -/
def getMessageType (s : List Nat) : Option MsgType :=
  (List.find? (fun e => jsTest e.2 s) regexList).map (fun e => e.1)

/-- The handlers reachable from the switch in Arcon
handleMessagePacket (src/Arcon/index.ts, lines 337 to 380): one
handler per recognised event plus the shared RCON-error emission for
the advisory patterns. The keys connectedToBeMaster, unknownCommand,
playerList and missions have no case there, so no handler runs. -/
inductive HandlerTag where
  | hPlayerConnected
  | hPlayerGuidCalculated
  | hPlayerGuidVerified
  | hPlayerDisconnected
  | hPlayerKicked
  | hBeLog
  | hPlayerMessage
  | hAdminMessage
  | hRconError
deriving DecidableEq, Repr

/-- The switch of Arcon handleMessagePacket as a map from message type
to the handler it runs, none for types without a case. -/
def dispatchOf : MsgType → Option HandlerTag
  | .playerConnected => some .hPlayerConnected
  | .playerGuidCalculated => some .hPlayerGuidCalculated
  | .playerGuidVerified => some .hPlayerGuidVerified
  | .playerDisconnected => some .hPlayerDisconnected
  | .playerKicked => some .hPlayerKicked
  | .beLog => some .hBeLog
  | .playerMessage => some .hPlayerMessage
  | .adminMessage => some .hAdminMessage
  | .masterQueryTimeout => some .hRconError
  | .banCheckTimeout => some .hRconError
  | .beMasterFailedToReceive => some .hRconError
  | .connectionFailedBeMaster => some .hRconError
  | .disconnectedFromBeMaster => some .hRconError
  | .eventLogError => some .hRconError
  | .filterKickDisabled => some .hRconError
  | .connectedToBeMaster => none
  | .unknownCommand => none
  | .playerList => none
  | .missions => none

/-- The handlers that run for a payload: the classification picks at
most one type and the switch runs at most one handler for it. -/
def handlersRun (s : List Nat) : List HandlerTag :=
  match getMessageType s with
  | none => []
  | some t => (dispatchOf t).toList

/-- C10: server-message classification is a deterministic first match
over the declaration-ordered pattern list. For every payload at most
one handler runs; no type is returned exactly when no pattern matches;
and a returned type is the one of the earliest matching pattern: every
pattern declared before it rejects the payload. -/
theorem c10_first_match_dispatch (s : List Nat) :
    (handlersRun s).length ≤ 1
    ∧ (getMessageType s = none ↔ ∀ e ∈ regexList, jsTest e.2 s = false)
    ∧ (∀ t, getMessageType s = some t →
        ∃ re pre post, regexList = pre ++ (t, re) :: post ∧ jsTest re s = true
          ∧ ∀ e ∈ pre, jsTest e.2 s = false) := by
  refine ⟨?_, ?_, ?_⟩
  · cases h : getMessageType s with
    | none => simp [handlersRun, h]
    | some t =>
      cases hd : dispatchOf t <;> simp [handlersRun, h, hd]
  · constructor
    · intro h e he
      have hn : List.find? (fun e => jsTest e.2 s) regexList = none := by
        cases hf : List.find? (fun e => jsTest e.2 s) regexList with
        | none => rfl
        | some x => simp [getMessageType, hf] at h
      have := List.find?_eq_none.mp hn e he
      simpa using this
    · intro h
      have hn : List.find? (fun e => jsTest e.2 s) regexList = none :=
        List.find?_eq_none.mpr (fun x hx => by simpa using h x hx)
      simp [getMessageType, hn]
  · intro t ht
    obtain ⟨e, hfind, hfst⟩ : ∃ e, List.find? (fun e => jsTest e.2 s) regexList = some e
        ∧ e.1 = t := by
      cases hf : List.find? (fun e => jsTest e.2 s) regexList with
      | none => simp [getMessageType, hf] at ht
      | some x =>
        refine ⟨x, rfl, ?_⟩
        simp [getMessageType, hf] at ht
        exact ht
    obtain ⟨hp, pre, post, heq, hpre⟩ := List.find?_eq_some.mp hfind
    refine ⟨e.2, pre, post, ?_, hp, ?_⟩
    · rw [heq]
      congr 1
      rw [← hfst]
    · intro x hx
      simpa using hpre x hx

/-- C10 witness: the payload below matches both playerMessage (7th in
declaration order) and adminMessage (8th); the classification picks
playerMessage and exactly that one handler runs. -/
theorem c10_first_match_dispatch_witness :
    (handlersRun (str2cp "(Global) RCon admin #5: (Side) hello")).length ≤ 1
    ∧ (∃ re pre post, regexList = pre ++ (MsgType.playerMessage, re) :: post
        ∧ jsTest re (str2cp "(Global) RCon admin #5: (Side) hello") = true
        ∧ ∀ e ∈ pre, jsTest e.2 (str2cp "(Global) RCon admin #5: (Side) hello") = false)
    ∧ jsTest reAdminMessage (str2cp "(Global) RCon admin #5: (Side) hello") = true
    ∧ handlersRun (str2cp "(Global) RCon admin #5: (Side) hello") = [.hPlayerMessage] :=
  ⟨(c10_first_match_dispatch _).1,
    (c10_first_match_dispatch _).2.2 .playerMessage (by decide),
    by decide, by decide⟩

/-- The Player class of src/Arcon/player.ts, constructor argument
order guid, id, ip, name, ping, lobby, verified. Ping is a JS number:
none models NaN as produced by parseInt on a digitless string. -/
structure JPlayer where
  guid : List Nat
  id : Nat
  ip : List Nat
  name : List Nat
  ping : Option Int
  lobby : Bool
  verified : Bool
deriving DecidableEq, Repr

/-- A connecting player entry of Arcon: id, ip and name with an
optional guid. -/
structure CPlayer where
  id : Nat
  ip : List Nat
  name : List Nat
  guid : Option (List Nat)
deriving DecidableEq, Repr

/-- JS Map get: the value at the key, if present. -/
def mapGet {α : Type} (m : List (Nat × α)) (k : Nat) : Option α :=
  (List.find? (fun e => decide (e.1 = k)) m).map (fun e => e.2)

/-- JS Map set: replace in place, or append a new key at the end. -/
def mapSet {α : Type} (m : List (Nat × α)) (k : Nat) (v : α) : List (Nat × α) :=
  match m with
  | [] => [(k, v)]
  | (k0, v0) :: rest => if k0 = k then (k, v) :: rest else (k0, v0) :: mapSet rest k v

/-- JS Map delete. -/
def mapDel {α : Type} (m : List (Nat × α)) (k : Nat) : List (Nat × α) :=
  m.filter (fun e => decide (e.1 ≠ k))

/-- The mutable state of the Arcon roster engine: the ready flag set by
the first player list, the acknowledged-sequence window, and the two
tables keyed by player id. -/
structure ArconState where
  ready : Bool
  seen : List Nat
  players : List (Nat × JPlayer)
  connecting : List (Nat × CPlayer)
deriving DecidableEq, Repr

/-- The events the Arcon message and command handlers can emit.
Error events are abstracted to a tag carrying the rule and, for
missing-player errors, the id; all player-facing events carry their
full payloads. -/
inductive AEvent where
  | errParse (which : MsgType)
  | errNotFound (which : MsgType) (id : Nat)
  | errRcon
  | errUnknownMsg
  | errNoPlayerMsg
  | playerConnectedEv (p : JPlayer)
  | playerDisconnectedEv (p : JPlayer) (reason : List Nat)
  | playerUpdatedEv (p : JPlayer) (changes : List Bool)
  | playersEv (ps : List JPlayer)
  | beLogEv (typ : List Nat) (filter : Nat) (log : List Nat) (guid : List Nat)
      (player : Option JPlayer)
  | playerMessageEv (p : JPlayer) (channel : List Nat) (text : List Nat)
  | adminMessageEv (id : Nat) (channel : List Nat) (message : List Nat)
  | missionsEv (ms : List (List Nat))
deriving DecidableEq, Repr

/-- JS parseInt on an all-digit capture of a backslash-d-plus group:
the decimal value. -/
def parseIntNat (l : List Nat) : Nat :=
  l.foldl (fun a c => a * 10 + (c - 48)) 0

/-- JS parseInt on a capture of the ping column: an optional minus sign
followed by the longest digit prefix, NaN (none) when no digit
follows. -/
def parseIntJS (l : List Nat) : Option Int :=
  let core : List Nat → Option Int := fun body =>
    let ds := body.takeWhile (fun c => decide (48 ≤ c) && decide (c ≤ 57))
    if ds.isEmpty then none else some (parseIntNat ds : Nat)
  match l with
  | 45 :: rest => (core rest).map (fun v => -v)
  | _ => core l

/-- JS strict inequality on numbers where none models NaN: NaN compares
unequal to everything, including itself. -/
def jsNumNe (a b : Option Int) : Bool :=
  match a, b with
  | some x, some y => decide (x ≠ y)
  | _, _ => true

/-- Handler playerConnected of src/Arcon/index.ts (lines 384 to 399):
record a connecting player. -/
def playerConnectedH (st : ArconState) (data : List Nat) : ArconState × List AEvent :=
  match jsMatch rePlayerConnected data with
  | none => (st, [.errParse .playerConnected])
  | some caps =>
    let id := parseIntNat (getCapD caps 1)
    ({st with
        connecting := mapSet st.connecting id ⟨id, getCapD caps 3, getCapD caps 2, none⟩},
      [])

/-- Handler playerGuidCalculated of src/Arcon/index.ts (lines 401 to
433): attach the guid to the connecting player, dropping the entry when
a connected player already holds this guid. -/
def playerGuidCalculatedH (st : ArconState) (data : List Nat) : ArconState × List AEvent :=
  match jsMatch rePlayerGuidCalculated data with
  | none => (st, [.errParse .playerGuidCalculated])
  | some caps =>
    let id := parseIntNat (getCapD caps 1)
    let guid := getCapD caps 3
    let connectingPlayer := mapGet st.connecting id
    let alreadyConnected := mapGet st.players id
    if (match alreadyConnected with
        | some p => decide (p.guid = guid)
        | none => false) then
      ({st with connecting := mapDel st.connecting id}, [])
    else
      match connectingPlayer with
      | none => (st, [])
      | some cp =>
        ({st with connecting := mapSet st.connecting id {cp with guid := some guid}}, [])

/-- Handler playerGuidVerified of src/Arcon/index.ts (lines 435 to
483): promote the connecting player, or mark an unverified player as
verified, emitting playerConnected. -/
def playerGuidVerifiedH (st : ArconState) (data : List Nat) : ArconState × List AEvent :=
  match jsMatch rePlayerGuidVerified data with
  | none => (st, [.errParse .playerGuidVerified])
  | some caps =>
    let guid := getCapD caps 1
    let id := parseIntNat (getCapD caps 2)
    let connectingPlayer := mapGet st.connecting id
    let player := mapGet st.players id
    if connectingPlayer.isNone && player.isNone then (st, [])
    else
      match connectingPlayer with
      | some c =>
        let newPlayer : JPlayer := ⟨guid, c.id, c.ip, c.name, some 0, true, true⟩
        ({st with
            connecting := mapDel st.connecting id
            players := mapSet st.players newPlayer.id newPlayer},
          [.playerConnectedEv newPlayer])
      | none =>
        match player with
        | some p =>
          if p.guid = guid && !p.verified then
            let p2 := {p with verified := true}
            ({st with players := mapSet st.players id p2}, [.playerConnectedEv p2])
          else (st, [])
        | none => (st, [])

/-- Handler playerDisconnected of src/Arcon/index.ts (lines 486 to
517): remove the player and emit playerDisconnected; silently drop a
connecting entry; otherwise surface a not-found error. Disconnects are
ignored before the roster is ready. -/
def playerDisconnectedH (st : ArconState) (data : List Nat) : ArconState × List AEvent :=
  if !st.ready then (st, [])
  else
    match jsMatch rePlayerDisconnected data with
    | none => (st, [.errParse .playerDisconnected])
    | some caps =>
      let id := parseIntNat (getCapD caps 1)
      match mapGet st.players id with
      | none =>
        if (mapGet st.connecting id).isSome then
          ({st with connecting := mapDel st.connecting id}, [])
        else (st, [.errNotFound .playerDisconnected id])
      | some player =>
        ({st with players := mapDel st.players id},
          [.playerDisconnectedEv player (str2cp "disconnected")])

/-- Handler playerKicked of src/Arcon/index.ts (lines 520 to 551):
like playerDisconnected but with the kick reason and no ready guard. -/
def playerKickedH (st : ArconState) (data : List Nat) : ArconState × List AEvent :=
  match jsMatch rePlayerKicked data with
  | none => (st, [.errParse .playerKicked])
  | some caps =>
    let id := parseIntNat (getCapD caps 1)
    let reason := getCapD caps 3
    match mapGet st.players id with
    | none =>
      if (mapGet st.connecting id).isSome then
        ({st with connecting := mapDel st.connecting id}, [])
      else (st, [.errNotFound .playerKicked id])
    | some player =>
      ({st with players := mapDel st.players id}, [.playerDisconnectedEv player reason])

/-- Handler beLog of src/Arcon/index.ts (lines 553 to 583): emit the
log record, preceded by a not-found error when the id is unknown. -/
def beLogH (st : ArconState) (data : List Nat) : ArconState × List AEvent :=
  match jsMatch reBeLog data with
  | none => (st, [.errParse .beLog])
  | some caps =>
    let id := parseIntNat (getCapD caps 2)
    let player := mapGet st.players id
    ((st),
      (if player.isNone then [.errNotFound .beLog id] else []) ++
        [.beLogEv (getCapD caps 1) (parseIntNat (getCapD caps 5)) (getCapD caps 6)
          (getCapD caps 4) player])

/-- Handler playerMessage of src/Arcon/index.ts (lines 649 to 698):
longest-name-prefix match over the roster, falling back to connecting
players that already have a guid. -/
def playerMessageH (st : ArconState) (data : List Nat) : ArconState × List AEvent :=
  match jsMatch rePlayerMessage data with
  | none => (st, [.errParse .playerMessage])
  | some caps =>
    let channel := getCapD caps 1
    let message := getCapD caps 2
    let byLen : JPlayer → JPlayer → Bool := fun a b =>
      decide (b.name.length ≤ a.name.length)
    let machingPlayers :=
      ((st.players.map (fun e => e.2)).filter
        (fun p => p.name.isPrefixOf message)).mergeSort byLen
    let machingPlayers2 :=
      if machingPlayers.isEmpty then
        match ((st.connecting.map (fun e => e.2)).filter
            (fun c => c.guid.isSome && c.name.isPrefixOf message)).mergeSort
            (fun a b => decide (b.name.length ≤ a.name.length)) with
        | [] => machingPlayers
        | c :: _ =>
          match c.guid with
          | some g => machingPlayers ++ [⟨g, c.id, c.ip, c.name, some 0, true, false⟩]
          | none => machingPlayers
      else machingPlayers
    match machingPlayers2 with
    | [] => (st, [.errNoPlayerMsg])
    | player :: _ =>
      (st, [.playerMessageEv player channel (message.drop (player.name.length + 2))])

/-- Handler adminMessage of src/Arcon/index.ts (lines 700 to 715). -/
def adminMessageH (st : ArconState) (data : List Nat) : ArconState × List AEvent :=
  match jsMatch reAdminMessage data with
  | none => (st, [.errParse .adminMessage])
  | some caps =>
    (st, [.adminMessageEv (parseIntNat (getCapD caps 1)) (getCapD caps 2) (getCapD caps 3)])

/-- Modelled from the spec: the sequence-deduplication window of the
message router. The methods hasSeenSequenceId and handleSequenceId are
called on the BaseClient by Arcon handleMessagePacket but are not
present in the sources; section 4.5 of the spec specifies a sliding
window of the 256 most recent sequences. Membership is the duplicate
test; recording prepends and truncates to 256. -/
def handleSequenceId (seen : List Nat) (sequence : Nat) : List Nat :=
  (sequence :: seen).take 256

/-- Shallow embedding of Arcon handleMessagePacket
(src/Arcon/index.ts, lines 310 to 335) on top of the BaseClient
acknowledgement (src/unnamed/part_009, lines 206 to 210). Returns the
new state, the sequences of the Ack frames sent, and the events
emitted. The super call always sends exactly one Ack carrying the
incoming sequence; a sequence already in the window is acked and
dropped; otherwise the payload is classified and dispatched. -/
def handleMessagePacket (st : ArconState) (sequence : Nat) (data : Option (List Nat)) :
    ArconState × List Nat × List AEvent :=
  let acks := [sequence]
  if st.seen.contains sequence then (st, acks, [])
  else
    let st1 := {st with seen := handleSequenceId st.seen sequence}
    match data with
    | none => (st1, acks, [])
    | some d =>
      if ((str2cp "RCon admin").isPrefixOf d && (str2cp "logged in").isSuffixOf d)
          || !st1.ready then (st1, acks, [])
      else
        match getMessageType d with
        | none => if d.isEmpty then (st1, acks, []) else (st1, acks, [.errUnknownMsg])
        | some .playerConnected =>
          ((playerConnectedH st1 d).1, acks, (playerConnectedH st1 d).2)
        | some .playerGuidCalculated =>
          ((playerGuidCalculatedH st1 d).1, acks, (playerGuidCalculatedH st1 d).2)
        | some .playerGuidVerified =>
          ((playerGuidVerifiedH st1 d).1, acks, (playerGuidVerifiedH st1 d).2)
        | some .playerDisconnected =>
          ((playerDisconnectedH st1 d).1, acks, (playerDisconnectedH st1 d).2)
        | some .playerKicked =>
          ((playerKickedH st1 d).1, acks, (playerKickedH st1 d).2)
        | some .beLog => ((beLogH st1 d).1, acks, (beLogH st1 d).2)
        | some .playerMessage =>
          ((playerMessageH st1 d).1, acks, (playerMessageH st1 d).2)
        | some .adminMessage =>
          ((adminMessageH st1 d).1, acks, (adminMessageH st1 d).2)
        | some .masterQueryTimeout => (st1, acks, [.errRcon])
        | some .banCheckTimeout => (st1, acks, [.errRcon])
        | some .beMasterFailedToReceive => (st1, acks, [.errRcon])
        | some .connectionFailedBeMaster => (st1, acks, [.errRcon])
        | some .disconnectedFromBeMaster => (st1, acks, [.errRcon])
        | some .eventLogError => (st1, acks, [.errRcon])
        | some .filterKickDisabled => (st1, acks, [.errRcon])
        | some .connectedToBeMaster => (st1, acks, [])
        | some .unknownCommand => (st1, acks, [])
        | some .playerList => (st1, acks, [])
        | some .missions => (st1, acks, [])

/-- One iteration of the row loop in Arcon playerList
(src/Arcon/index.ts, lines 585 to 640): a verified row without an
existing player is added directly; a guidless row without a connecting
entry becomes a connecting player; an existing player is diffed on
ping, lobby and verified, in that order, and mutated with a
playerUpdated event when anything changed. The ip of an existing
player is never touched. -/
def rowStep (st : ArconState) (row : Caps) : ArconState × List AEvent :=
  let id := parseIntNat (getCapD row 1)
  let ip := getCapD row 2
  let ping := parseIntJS (getCapD row 3)
  let guid := getCapD row 4
  let verified := decide (getCap row 5 = some (str2cp "OK"))
  let name := getCapD row 6
  let lobby := decide (getCap row 7 = some (str2cp "Lobby"))
  let existingPlayer := mapGet st.players id
  let connectingPlayer := mapGet st.connecting id
  if existingPlayer.isNone && verified then
    ({st with
        players := mapSet st.players id ⟨guid, id, ip, name, ping, lobby, verified⟩
        connecting := mapDel st.connecting id},
      [])
  else if decide (guid = [45]) && connectingPlayer.isNone then
    ({st with connecting := mapSet st.connecting id ⟨id, ip, name, some guid⟩}, [])
  else
    match existingPlayer with
    | some p =>
      let changes := [jsNumNe p.ping ping, decide (p.lobby ≠ lobby),
        decide (p.verified ≠ verified)]
      if changes.any (fun c => c) then
        let p2 := {p with ping := ping, lobby := lobby, verified := verified}
        ({st with players := mapSet st.players id p2}, [.playerUpdatedEv p2 changes])
      else (st, [])
    | none => (st, [])

/-- Shallow embedding of Arcon playerList (src/Arcon/index.ts, lines
585 to 640): fold the row loop over all matches of the playerList
regex, then emit the players snapshot and set the ready flag. -/
def playerListH (st : ArconState) (data : List Nat) : ArconState × List AEvent :=
  let rows := matchAll rePlayerList data
  let r := rows.foldl (fun acc row =>
    let s := rowStep acc.1 row
    (s.1, acc.2 ++ s.2)) (st, ([] : List AEvent))
  ({r.1 with ready := true}, r.2 ++ [.playersEv (r.1.players.map (fun e => e.2))])

/-- C4: every accepted ServerMessage frame is acknowledged with exactly
one Ack frame carrying the same sequence, and a frame whose sequence is
already inside the deduplication window is acked again but changes no
state and emits no event, so no duplicate player events can arise. -/
theorem c4_ack_once_and_dedup (st : ArconState) (sequence : Nat)
    (data : Option (List Nat)) :
    (handleMessagePacket st sequence data).2.1 = [sequence]
    ∧ (st.seen.contains sequence = true →
        handleMessagePacket st sequence data = (st, [sequence], [])) := by
  constructor
  · by_cases hct : sequence ∈ st.seen
    · have hb : st.seen.contains sequence = true := by simpa using hct
      simp [handleMessagePacket, hb, hct]
    · have hb : st.seen.contains sequence = false := by simpa using hct
      cases data with
      | none => simp [handleMessagePacket, hb, hct]
      | some d =>
        simp only [handleMessagePacket, hb, hct, Bool.false_eq_true, if_false, if_neg,
          not_false_eq_true]
        split
        · rfl
        · split <;> first
          | rfl
          | (split <;> rfl)
  · intro h
    have hmem : sequence ∈ st.seen := by simpa using h
    simp [handleMessagePacket, h, hmem]

/-- C4 witness: sequence 5 is already in the window; the frame is acked
once more, the state is untouched and nothing is emitted. -/
theorem c4_ack_once_and_dedup_witness :
    (([5] : List Nat).contains 5 = true)
    ∧ handleMessagePacket ⟨true, [5], [], []⟩ 5
        (some (str2cp "Player #9 Bob disconnected")) = (⟨true, [5], [], []⟩, [5], []) :=
  ⟨by decide,
    (c4_ack_once_and_dedup ⟨true, [5], [], []⟩ 5
      (some (str2cp "Player #9 Bob disconnected"))).2 (by decide)⟩

/-- C9: a playerDisconnected or playerKicked notification naming an id
that is in neither the roster nor the connecting set leaves both tables
and the whole state unchanged and emits only the not-found error event:
no playerDisconnected event and no table mutation. -/
theorem c9_unknown_id_only_error (st : ArconState) (d1 d2 : List Nat) (c1 c2 : Caps)
    (hready : st.ready = true)
    (h1 : jsMatch rePlayerDisconnected d1 = some c1)
    (hid1 : mapGet st.players (parseIntNat (getCapD c1 1)) = none)
    (hcp1 : mapGet st.connecting (parseIntNat (getCapD c1 1)) = none)
    (h2 : jsMatch rePlayerKicked d2 = some c2)
    (hid2 : mapGet st.players (parseIntNat (getCapD c2 1)) = none)
    (hcp2 : mapGet st.connecting (parseIntNat (getCapD c2 1)) = none) :
    playerDisconnectedH st d1 = (st, [.errNotFound .playerDisconnected
        (parseIntNat (getCapD c1 1))])
    ∧ playerKickedH st d2 = (st, [.errNotFound .playerKicked
        (parseIntNat (getCapD c2 1))]) := by
  constructor
  · simp [playerDisconnectedH, hready, h1, hid1, hcp1]
  · simp [playerKickedH, h2, hid2, hcp2]

set_option maxRecDepth 8192 in
/-- C9 witness: an empty ready state, a disconnect for id 9 and a kick
for id 2. Both handlers emit only the not-found error. -/
theorem c9_unknown_id_only_error_witness :
    playerDisconnectedH ⟨true, [], [], []⟩ (str2cp "Player #9 Bob disconnected") =
        (⟨true, [], [], []⟩, [.errNotFound .playerDisconnected 9])
    ∧ playerKickedH ⟨true, [], [], []⟩
        (str2cp "Player #2 Eve (aabbccddeeff00112233445566778899) has been kicked by BattlEye: Script Restriction #12") =
        (⟨true, [], [], []⟩, [.errNotFound .playerKicked 2]) :=
  c9_unknown_id_only_error ⟨true, [], [], []⟩
    (str2cp "Player #9 Bob disconnected")
    (str2cp "Player #2 Eve (aabbccddeeff00112233445566778899) has been kicked by BattlEye: Script Restriction #12")
    [(2, str2cp "Bob"), (1, str2cp "9")]
    [(3, str2cp "Script Restriction #12"), (2, str2cp "Eve"), (1, str2cp "2")]
    rfl (by decide) (by decide) (by decide) (by decide) (by decide) (by decide)

/-- A seeded verified-pending player for the C7 counterexample: id 4,
ping 50, not in the lobby, not yet verified. -/
def c7Player : JPlayer :=
  ⟨str2cp "aabbccddeeff00112233445566778899", 4, str2cp "1.2.3.4", str2cp "Bob",
    some 50, false, false⟩

/-- Roster state holding only the player above, ready. -/
def c7State : ArconState := ⟨true, [], [(4, c7Player)], []⟩

/-- A roster dump whose only row reports id 4 with the same ping and
lobby flag but a now-verified GUID. -/
def c7Dump : List Nat :=
  str2cp "Players on server:\n4   1.2.3.4:2302  50   aabbccddeeff00112233445566778899(OK) Bob"

set_option maxRecDepth 16384 in
/-- C7 counterexample: in the dump above only the verified flag
changed, yet the emitted change set is [false, false, true]: the slots
are ordered ping, lobby, verified in the source, so under the claimed
order ping, verified, lobby the second slot would have to be true.
The ip is also left untouched rather than backfilled. -/
theorem c7_change_set_order_counterexample :
    playerListH c7State c7Dump =
      ({c7State with players := [(4, {c7Player with verified := true})]},
        [.playerUpdatedEv {c7Player with verified := true} [false, false, true],
          .playersEv [{c7Player with verified := true}]])
    ∧ c7Player.verified ≠ ({c7Player with verified := true} : JPlayer).verified
    ∧ c7Player.lobby = ({c7Player with verified := true} : JPlayer).lobby
    ∧ c7Player.ping = ({c7Player with verified := true} : JPlayer).ping
    ∧ ([false, false, true] : List Bool) ≠ [false, true, false] := by
  refine ⟨by decide, by decide, by decide, by decide, by decide⟩

/-- C7 (amended): for a roster-dump row whose id matches an existing
player, provided the row carries a GUID or a connecting entry exists
for the id (a guidless row with no connecting entry takes the
connecting-player branch instead), the row loop computes the change
set over the fields ping, lobby, verified in that order, applies the
three mutations, leaves ip, name, guid and the connecting table
untouched, and emits playerUpdated exactly when at least one of the
three fields changed. -/
theorem c7_rowstep_update (st : ArconState) (row : Caps) (p : JPlayer)
    (hp : mapGet st.players (parseIntNat (getCapD row 1)) = some p)
    (hguard : ¬(getCapD row 4 = [45]
        ∧ mapGet st.connecting (parseIntNat (getCapD row 1)) = none)) :
    (([jsNumNe p.ping (parseIntJS (getCapD row 3)),
        decide (p.lobby ≠ decide (getCap row 7 = some (str2cp "Lobby"))),
        decide (p.verified ≠ decide (getCap row 5 = some (str2cp "OK")))] : List Bool).any
          (fun c => c) = false →
      rowStep st row = (st, []))
    ∧ (([jsNumNe p.ping (parseIntJS (getCapD row 3)),
        decide (p.lobby ≠ decide (getCap row 7 = some (str2cp "Lobby"))),
        decide (p.verified ≠ decide (getCap row 5 = some (str2cp "OK")))] : List Bool).any
          (fun c => c) = true →
      rowStep st row =
        ({st with players := (mapSet st.players (parseIntNat (getCapD row 1))
            {p with
              ping := parseIntJS (getCapD row 3)
              lobby := decide (getCap row 7 = some (str2cp "Lobby"))
              verified := decide (getCap row 5 = some (str2cp "OK"))})},
          [.playerUpdatedEv
            {p with
              ping := parseIntJS (getCapD row 3)
              lobby := decide (getCap row 7 = some (str2cp "Lobby"))
              verified := decide (getCap row 5 = some (str2cp "OK"))}
            [jsNumNe p.ping (parseIntJS (getCapD row 3)),
              decide (p.lobby ≠ decide (getCap row 7 = some (str2cp "Lobby"))),
              decide (p.verified ≠ decide (getCap row 5 = some (str2cp "OK")))]])) := by
  have hcond2 : (decide (getCapD row 4 = [45])
      && (mapGet st.connecting (parseIntNat (getCapD row 1))).isNone) = false := by
    by_cases hg : getCapD row 4 = [45]
    · cases hcc : mapGet st.connecting (parseIntNat (getCapD row 1)) with
      | none => exact absurd ⟨hg, hcc⟩ hguard
      | some c => simp [hg, hcc]
    · simp [hg]
  constructor
  · intro hchg
    simp only [List.any_cons, List.any_nil, Bool.or_eq_false_iff] at hchg
    obtain ⟨ha, hb, hc, -⟩ := hchg
    simp only [decide_eq_false_iff_not, ne_eq, not_not] at hb hc
    simp [rowStep, hp, hcond2, ha, hb, hc]
  · intro hchg
    simp only [List.any_cons, List.any_nil, Bool.or_eq_true] at hchg
    simp [rowStep, hp, hcond2]
    intro ha hb
    rcases hchg with h | h | h
    · rw [ha] at h
      exact absurd h (by simp)
    · simp only [decide_eq_true_eq, ne_eq] at h
      exact absurd hb h
    · simp only [decide_eq_true_eq, ne_eq] at h
      rcases h with h | h
      · exact h
      · exact absurd h (by simp)

/-- Row captures for the C7 witness: id 4, ping 51, verified GUID,
name Bob, not in the lobby. -/
def c7Row : Caps :=
  [(1, str2cp "4"), (3, str2cp "51"), (4, str2cp "aabbccddeeff00112233445566778899"),
    (5, str2cp "OK"), (6, str2cp "Bob")]

/-- C7 witness: the amended row-update theorem applied to a concrete
row whose ping and verified flags changed: the change set is
[true, false, true] in ping, lobby, verified order and the mutations
are applied. -/
theorem c7_rowstep_update_witness :
    rowStep c7State c7Row =
      ({c7State with players := (mapSet c7State.players (parseIntNat (getCapD c7Row 1))
          {c7Player with
            ping := parseIntJS (getCapD c7Row 3)
            lobby := decide (getCap c7Row 7 = some (str2cp "Lobby"))
            verified := decide (getCap c7Row 5 = some (str2cp "OK"))})},
        [.playerUpdatedEv
          {c7Player with
            ping := parseIntJS (getCapD c7Row 3)
            lobby := decide (getCap c7Row 7 = some (str2cp "Lobby"))
            verified := decide (getCap c7Row 5 = some (str2cp "OK"))}
          [jsNumNe c7Player.ping (parseIntJS (getCapD c7Row 3)),
            decide (c7Player.lobby ≠ decide (getCap c7Row 7 = some (str2cp "Lobby"))),
            decide (c7Player.verified ≠ decide (getCap c7Row 5 = some (str2cp "OK")))]]) :=
  (c7_rowstep_update c7State c7Row c7Player (by decide) (by decide)).2 (by decide)

/-- State of the BaseClient heartbeat machinery
(src/unnamed/part_009, lines 38 to 246): the sequence counter, the two
command timestamps, whether close ran, and a ghost log of the
heartbeats sent as (time, sequence) pairs. Timestamps are milliseconds
since the connection completed. -/
structure HbState where
  sequence : Nat
  lastCommandPacketSentAt : Option Nat
  lastCommandPacketReceivedAt : Option Nat
  closed : Bool
  heartbeats : List (Nat × Nat)
deriving DecidableEq, Repr

/-- BaseClient getSequence: return the counter, advance it mod 256 and
stamp the send time. -/
def getSequenceHb (st : HbState) (now : Nat) : Nat × HbState :=
  (st.sequence,
    {st with sequence := (st.sequence + 1) % 256, lastCommandPacketSentAt := some now})

/-- One run of the BaseClient heartbeat callback (src/unnamed/part_009,
lines 215 to 246) at the given time: send immediately when no command
packet was ever sent; close when the last command answered over 15
seconds after it was received; otherwise send a heartbeat only when
more than 20 seconds have passed since the last send. -/
def heartbeatTick (st : HbState) (now : Nat) : HbState :=
  if st.closed then st
  else
    match st.lastCommandPacketSentAt with
    | none =>
      let r := getSequenceHb st now
      {r.2 with heartbeats := r.2.heartbeats ++ [(now, r.1)]}
    | some lastSent =>
      let timedOut :=
        match st.lastCommandPacketReceivedAt with
        | some lastRecv => decide ((lastSent : Int) - (lastRecv : Int) > 15000)
        | none => false
      if timedOut then {st with closed := true}
      else if now - lastSent > 20000 then
        let r := getSequenceHb st now
        {r.2 with heartbeats := r.2.heartbeats ++ [(now, r.1)]}
      else st

/-- The heartbeat interval runs every second from the moment the login
succeeds; a quiet connected session (no commands sent, no command
responses) is just the ticks at 1000, 2000, 3000, ... milliseconds. -/
def runHb (k : Nat) : HbState :=
  (List.range k).foldl (fun st i => heartbeatTick st ((i + 1) * 1000)) ⟨0, none, none, false, []⟩

/-- Invariant of the quiet heartbeat run: never closed, no command ever
received, the last-send stamp is the time of the last heartbeat,
consecutive heartbeats are over 20 seconds apart, and the sequences
are the successive allocator values 0, 1, 2, ... mod 256. -/
def HbInv (st : HbState) : Prop :=
  st.closed = false
  ∧ st.lastCommandPacketReceivedAt = none
  ∧ (st.heartbeats = [] → st.lastCommandPacketSentAt = none)
  ∧ (∀ e, st.heartbeats.getLast? = some e → st.lastCommandPacketSentAt = some e.1)
  ∧ List.Chain' (fun a b => a.1 + 20000 < b.1) st.heartbeats
  ∧ st.sequence = st.heartbeats.length % 256
  ∧ st.heartbeats.map (fun e => e.2) =
      (List.range st.heartbeats.length).map (fun i => i % 256)

/-- The heartbeat tick preserves the quiet-session invariant. -/
theorem heartbeatTick_inv (st : HbState) (now : Nat) (h : HbInv st) :
    HbInv (heartbeatTick st now) := by
  obtain ⟨hc, hr, he, hl, hchain, hseq, hmap⟩ := h
  unfold heartbeatTick
  rw [hc]
  simp only [Bool.false_eq_true, if_false]
  cases hsent : st.lastCommandPacketSentAt with
  | none =>
    have hemp : st.heartbeats = [] := by
      cases hhb : st.heartbeats.getLast? with
      | none => exact List.getLast?_eq_none_iff.mp hhb
      | some e =>
        have := hl e hhb
        rw [hsent] at this
        exact Option.noConfusion this
    refine ⟨hc, hr, ?_, ?_, ?_, ?_, ?_⟩ <;>
      simp [getSequenceHb, hemp, hseq, hmap, List.range_succ]
  | some lastSent =>
    rw [hr]
    simp only [if_false, Bool.false_eq_true]
    by_cases hgap : now - lastSent > 20000
    · rw [if_pos hgap]
      have hlast : ∀ e, st.heartbeats.getLast? = some e → e.1 + 20000 < now := by
        intro e hegl
        have := hl e hegl
        rw [hsent] at this
        have he1 : e.1 = lastSent := by
          injection this with h2
          omega
        omega
      refine ⟨hc, hr, by simp [getSequenceHb], ?_, ?_, ?_, ?_⟩
      · intro e hegl
        simp only [getSequenceHb] at hegl ⊢
        rw [List.getLast?_concat] at hegl
        injection hegl with h2
        rw [← h2]
      · simp only [getSequenceHb]
        rw [List.chain'_append]
        refine ⟨hchain, by simp, ?_⟩
        intro x hx y hy
        simp only [List.head?_cons, Option.mem_def, Option.some.injEq] at hy
        subst hy
        exact hlast x hx
      · simp [getSequenceHb, hseq]
      · simp only [getSequenceHb, List.map_append, hmap, List.length_append,
          List.length_cons, List.length_nil, List.range_succ, hseq]
        simp
    · rw [if_neg hgap]
      exact ⟨hc, hr, he, hl, hchain, hseq, hmap⟩

/-- The quiet run maintains the invariant at every length. -/
theorem runHb_inv (k : Nat) : HbInv (runHb k) := by
  induction k with
  | zero =>
    refine ⟨rfl, rfl, fun _ => rfl, ?_, ?_, rfl, rfl⟩ <;> simp [runHb]
  | succ k ih =>
    have hstep : runHb (k + 1) = heartbeatTick (runHb k) ((k + 1) * 1000) := by
      unfold runHb
      rw [List.range_succ, List.foldl_append]
      rfl
    rw [hstep]
    exact heartbeatTick_inv _ _ ih

/-- C8: in a quiet connected session the heartbeat machinery emits a
synthetic empty command at most every 20 seconds: consecutive
heartbeats are over 20 seconds apart, every heartbeat carries a fresh
allocator sequence (0, 1, 2, ... mod 256 in order), and after 20
seconds exactly one heartbeat has been sent, at the first tick, with
sequence 0. -/
theorem c8_heartbeat_quiet_session (k : Nat) :
    (runHb 20).heartbeats = [(1000, 0)]
    ∧ List.Chain' (fun a b => a.1 + 20000 < b.1) ((runHb k).heartbeats)
    ∧ (runHb k).heartbeats.map (fun e => e.2) =
        (List.range (runHb k).heartbeats.length).map (fun i => i % 256) := by
  obtain ⟨-, -, -, -, hchain, -, hmap⟩ := runHb_inv k
  exact ⟨by decide, hchain, hmap⟩

/-- State of the command scheduler: the BaseClient allocator fields
(src/unnamed/part_009) together with the Arcon queue machinery
(src/Arcon/index.ts, lines 196 to 246 and 717 to 737), a closed flag,
and a ghost log of allocations as (time, sequence, inFlight) triples
where inFlight records whether a command was awaiting its response at
the moment of the allocation. -/
structure SchedState where
  sequence : Nat
  lastCommandPacketSentAt : Option Nat
  lastCommandPacketReceivedAt : Option Nat
  commandQueue : List (List Nat)
  waitingForCommandResponse : Bool
  lastCommandSentAt : Option Nat
  closed : Bool
  allocLog : List (Nat × Nat × Bool)
deriving DecidableEq, Repr

/-- BaseClient getSequence on the scheduler state: return the counter,
advance it mod 256, stamp the send time. -/
def getSequenceS (st : SchedState) (now : Nat) : Nat × SchedState :=
  (st.sequence,
    {st with sequence := (st.sequence + 1) % 256, lastCommandPacketSentAt := some now})

/-- Arcon sendCommand: push the command text onto the queue; no
sequence is allocated at enqueue time. -/
def sendCommandS (st : SchedState) (cmd : List Nat) : SchedState :=
  {st with commandQueue := st.commandQueue ++ [cmd]}

/-- Effect of a nonempty command response in Arcon
handleCommandPacket: the BaseClient stamps the receive time and the
in-flight command is retired: the waiting flag clears, the send stamp
resets, and the queue head is dropped. -/
def handleResponseS (st : SchedState) (now : Nat) : SchedState :=
  {st with
    lastCommandPacketReceivedAt := some now
    waitingForCommandResponse := false
    lastCommandSentAt := none
    commandQueue := st.commandQueue.drop 1}

/-- Arcon processCommandQueue (src/Arcon/index.ts, lines 717 to 737):
while waiting, clear the flag once the command is over 5 seconds old
and return; otherwise dequeue the head, mark it in flight and send it
with a sequence allocated by getSequence at this very moment. -/
def processQueueS (st : SchedState) (now : Nat) : SchedState :=
  if st.waitingForCommandResponse then
    match st.lastCommandSentAt with
    | some t =>
      if now - t > 5000 then {st with waitingForCommandResponse := false} else st
    | none => st
  else
    match st.commandQueue.head? with
    | none => st
    | some _ =>
      let st1 := {st with waitingForCommandResponse := true, lastCommandSentAt := some now}
      let r := getSequenceS st1 now
      {r.2 with allocLog := r.2.allocLog ++ [(now, r.1, st.waitingForCommandResponse)]}

/-- BaseClient heartbeat (src/unnamed/part_009, lines 215 to 246) on
the scheduler state, logging any allocation it performs. -/
def heartbeatS (st : SchedState) (now : Nat) : SchedState :=
  match st.lastCommandPacketSentAt with
  | none =>
    let r := getSequenceS st now
    {r.2 with allocLog := r.2.allocLog ++ [(now, r.1, st.waitingForCommandResponse)]}
  | some lastSent =>
    let timedOut :=
      match st.lastCommandPacketReceivedAt with
      | some lastRecv => decide ((lastSent : Int) - (lastRecv : Int) > 15000)
      | none => false
    if timedOut then {st with closed := true}
    else if now - lastSent > 20000 then
      let r := getSequenceS st now
      {r.2 with allocLog := r.2.allocLog ++ [(now, r.1, st.waitingForCommandResponse)]}
    else st

/-- External stimulus of one scheduler step: commands enqueued by the
user and whether a command response arrived. -/
structure SInput where
  enqueue : List (List Nat)
  response : Bool
deriving DecidableEq, Repr

/-- One 500 millisecond step of the connected session, mirroring the
Node timers: the command-queue interval runs every 500 ms and the
BaseClient heartbeat interval every 1000 ms; inbound traffic and user
enqueues are processed first. -/
def schedStep (st : SchedState) (i : SInput) (k : Nat) : SchedState :=
  if st.closed then st
  else
    let now := (k + 1) * 500
    let st1 := i.enqueue.foldl sendCommandS st
    let st2 := if i.response then handleResponseS st1 now else st1
    let st3 := processQueueS st2 now
    if (k + 1) % 2 = 0 then heartbeatS st3 now else st3

/-- Run the scheduler from the step with the given index. -/
def runSchedGo (st : SchedState) (k : Nat) : List SInput → SchedState
  | [] => st
  | i :: rest => runSchedGo (schedStep st i k) (k + 1) rest

/-- The scheduler state right after login completes. -/
def initSched : SchedState := ⟨0, none, none, [], false, none, false, []⟩

/-- Run the connected session over a list of per-step inputs. -/
def runSched (inputs : List SInput) : SchedState := runSchedGo initSched 0 inputs

/-- While a command is in flight on an open session, its send stamps
agree. -/
def WInv (st : SchedState) : Prop :=
  st.closed = false → st.waitingForCommandResponse = true →
    ∃ T, st.lastCommandSentAt = some T ∧ st.lastCommandPacketSentAt = some T

/-- Allocation soundness: no allocation ever happened while a command
was in flight, the logged sequences are the cycle 0, 1, 2, ... mod 256,
and the counter equals the allocation count mod 256. -/
def AInv (st : SchedState) : Prop :=
  (∀ e ∈ st.allocLog, e.2.2 = false)
  ∧ st.allocLog.map (fun e => e.2.1) = (List.range st.allocLog.length).map (fun i => i % 256)
  ∧ st.sequence = st.allocLog.length % 256

/-- Freshness bound: an in-flight command on an open session was sent
at most 5 seconds before the given time. -/
def BoundInv (st : SchedState) (now : Nat) : Prop :=
  st.closed = false → st.waitingForCommandResponse = true →
    ∃ T, st.lastCommandSentAt = some T ∧ st.lastCommandPacketSentAt = some T
      ∧ now ≤ T + 5000

/-- Enqueueing commands only appends to the queue. -/
theorem foldl_sendCommandS (l : List (List Nat)) (st : SchedState) :
    l.foldl sendCommandS st = {st with commandQueue := st.commandQueue ++ l} := by
  induction l generalizing st with
  | nil => simp
  | cons c cs ih =>
    simp only [List.foldl_cons, ih, sendCommandS]
    simp

/-- Appending an allocation with a false in-flight flag preserves
allocation soundness. -/
theorem AInv_alloc (st : SchedState) (now : Nat) (log2 : List (Nat × Nat × Bool))
    (h : AInv st) (hlog : log2 = st.allocLog ++ [(now, st.sequence, false)]) :
    (∀ e ∈ log2, e.2.2 = false)
    ∧ log2.map (fun e => e.2.1) = (List.range log2.length).map (fun i => i % 256)
    ∧ (st.sequence + 1) % 256 = log2.length % 256 := by
  obtain ⟨hflag, hmap, hseq⟩ := h
  subst hlog
  refine ⟨?_, ?_, ?_⟩
  · intro e he
    rcases List.mem_append.mp he with h | h
    · exact hflag e h
    · simp only [List.mem_singleton] at h
      rw [h]
  · simp only [List.map_append, hmap, List.length_append, List.length_cons,
      List.length_nil, List.range_succ, List.map_cons, List.map_nil, hseq]
  · simp only [List.length_append, List.length_cons, List.length_nil]
    omega

/-- The queue tick preserves the invariants and establishes the
5-second freshness bound at its own time. -/
theorem processQueueS_inv (st : SchedState) (now : Nat) (hw : WInv st) (ha : AInv st) :
    WInv (processQueueS st now) ∧ AInv (processQueueS st now)
      ∧ BoundInv (processQueueS st now) now := by
  by_cases hwait : st.waitingForCommandResponse = true
  · cases hs : st.lastCommandSentAt with
    | none =>
      have : processQueueS st now = st := by
        simp [processQueueS, hwait, hs]
      rw [this]
      refine ⟨hw, ha, ?_⟩
      intro h1 h2
      obtain ⟨T, hT1, hT2⟩ := hw h1 h2
      rw [hs] at hT1
      exact Option.noConfusion hT1
    | some t =>
      by_cases hto : now - t > 5000
      · have : processQueueS st now = {st with waitingForCommandResponse := false} := by
          simp [processQueueS, hwait, hs, hto]
        rw [this]
        refine ⟨?_, ha, ?_⟩ <;>
          exact fun h1 h2 => by simp at h2
      · have : processQueueS st now = st := by
          simp [processQueueS, hwait, hs, hto]
        rw [this]
        refine ⟨hw, ha, ?_⟩
        intro h1 h2
        obtain ⟨T, hT1, hT2⟩ := hw h1 h2
        rw [hs] at hT1
        injection hT1 with hTt
        exact ⟨T, by rw [hs, hTt], hT2, by omega⟩
  · cases hq : st.commandQueue.head? with
    | none =>
      have : processQueueS st now = st := by
        simp [processQueueS, hwait, hq]
      rw [this]
      refine ⟨hw, ha, ?_⟩
      intro h1 h2
      exact absurd h2 hwait
    | some c =>
      have hform : processQueueS st now =
          {st with
            waitingForCommandResponse := true
            lastCommandSentAt := some now
            sequence := (st.sequence + 1) % 256
            lastCommandPacketSentAt := some now
            allocLog := st.allocLog ++ [(now, st.sequence, st.waitingForCommandResponse)]} := by
        simp [processQueueS, hwait, hq, getSequenceS]
      have hwfalse : st.waitingForCommandResponse = false := by
        simpa using hwait
      rw [hform, hwfalse]
      have hres := AInv_alloc st now _ ha rfl
      refine ⟨?_, ⟨hres.1, hres.2.1, hres.2.2⟩, ?_⟩
      · intro h1 h2
        exact ⟨now, rfl, rfl⟩
      · intro h1 h2
        exact ⟨now, rfl, rfl, by omega⟩

/-- The queue tick never touches the closed flag. -/
theorem processQueueS_closed (st : SchedState) (now : Nat) :
    (processQueueS st now).closed = st.closed := by
  unfold processQueueS
  split
  · split
    · split <;> rfl
    · rfl
  · split <;> rfl

/-- The heartbeat tick preserves the invariants when fired on an open
session whose in-flight command, if any, is at most 5 seconds old. -/
theorem heartbeatS_inv (st : SchedState) (now : Nat) (hcl : st.closed = false)
    (hw : WInv st) (ha : AInv st) (hb : BoundInv st now) :
    WInv (heartbeatS st now) ∧ AInv (heartbeatS st now)
      ∧ BoundInv (heartbeatS st now) now := by
  cases hps : st.lastCommandPacketSentAt with
  | none =>
    have hwfalse : st.waitingForCommandResponse = false := by
      cases hwv : st.waitingForCommandResponse with
      | false => rfl
      | true =>
        obtain ⟨T, hT1, hT2, hT3⟩ := hb hcl hwv
        rw [hps] at hT2
        exact Option.noConfusion hT2
    have hform : heartbeatS st now =
        {st with
          sequence := (st.sequence + 1) % 256
          lastCommandPacketSentAt := some now
          allocLog := st.allocLog ++ [(now, st.sequence, st.waitingForCommandResponse)]} := by
      simp [heartbeatS, hps, getSequenceS]
    rw [hform, hwfalse]
    have hres := AInv_alloc st now _ ha rfl
    refine ⟨?_, ⟨hres.1, hres.2.1, hres.2.2⟩, ?_⟩ <;>
      exact fun h1 h2 => by simp [hwfalse] at h2
  | some lastSent =>
    cases hpr : st.lastCommandPacketReceivedAt with
    | none =>
      by_cases h20 : now - lastSent > 20000
      · have hwfalse : st.waitingForCommandResponse = false := by
          cases hwv : st.waitingForCommandResponse with
          | false => rfl
          | true =>
            obtain ⟨T, hT1, hT2, hT3⟩ := hb hcl hwv
            rw [hps] at hT2
            injection hT2 with hTe
            omega
        have hform : heartbeatS st now =
            {st with
              sequence := (st.sequence + 1) % 256
              lastCommandPacketSentAt := some now
              allocLog := st.allocLog ++ [(now, st.sequence, st.waitingForCommandResponse)]} := by
          simp [heartbeatS, hps, hpr, h20, getSequenceS]
        rw [hform, hwfalse]
        have hres := AInv_alloc st now _ ha rfl
        refine ⟨?_, ⟨hres.1, hres.2.1, hres.2.2⟩, ?_⟩ <;>
          exact fun h1 h2 => by simp [hwfalse] at h2
      · have hform : heartbeatS st now = st := by
          simp [heartbeatS, hps, hpr, h20]
        rw [hform]
        exact ⟨hw, ha, hb⟩
    | some lastRecv =>
      by_cases h15 : (lastSent : Int) - (lastRecv : Int) > 15000
      · have hform : heartbeatS st now = {st with closed := true} := by
          simp [heartbeatS, hps, hpr, h15]
        rw [hform]
        refine ⟨?_, ha, ?_⟩ <;>
          exact fun h1 _ => by simp at h1
      · by_cases h20 : now - lastSent > 20000
        · have hwfalse : st.waitingForCommandResponse = false := by
            cases hwv : st.waitingForCommandResponse with
            | false => rfl
            | true =>
              obtain ⟨T, hT1, hT2, hT3⟩ := hb hcl hwv
              rw [hps] at hT2
              injection hT2 with hTe
              omega
          have hform : heartbeatS st now =
              {st with
                sequence := (st.sequence + 1) % 256
                lastCommandPacketSentAt := some now
                allocLog := st.allocLog ++ [(now, st.sequence, st.waitingForCommandResponse)]} := by
            simp [heartbeatS, hps, hpr, h15, h20, getSequenceS]
          rw [hform, hwfalse]
          have hres := AInv_alloc st now _ ha rfl
          refine ⟨?_, ⟨hres.1, hres.2.1, hres.2.2⟩, ?_⟩ <;>
            exact fun h1 h2 => by simp [hwfalse] at h2
        · have hform : heartbeatS st now = st := by
            simp [heartbeatS, hps, hpr, h15, h20]
          rw [hform]
          exact ⟨hw, ha, hb⟩

/-- A command response on an open session preserves the invariants
needed for the next queue tick. -/
theorem respStep_inv (st : SchedState) (now : Nat) (r : Bool)
    (hA : AInv st) (hW : WInv st) (hc : st.closed = false) :
    AInv (if r then handleResponseS st now else st)
      ∧ WInv (if r then handleResponseS st now else st)
      ∧ (if r then handleResponseS st now else st).closed = false := by
  cases r with
  | false =>
    rw [if_neg (by simp)]
    exact ⟨hA, hW, hc⟩
  | true =>
    rw [if_pos rfl]
    refine ⟨hA, ?_, hc⟩
    intro h1 h2
    simp [handleResponseS] at h2

/-- One scheduler step preserves allocation soundness and, while the
session stays open, the send-stamp agreement. -/
theorem schedStep_inv (st : SchedState) (i : SInput) (k : Nat)
    (hA : AInv st) (hWc : st.closed = false → WInv st) :
    AInv (schedStep st i k)
      ∧ ((schedStep st i k).closed = false → WInv (schedStep st i k)) := by
  by_cases hcl : st.closed = true
  · have hid : schedStep st i k = st := by simp [schedStep, hcl]
    rw [hid]
    exact ⟨hA, hWc⟩
  · have hclf : st.closed = false := by simpa using hcl
    have hW : WInv st := hWc hclf
    have hA1 : AInv (i.enqueue.foldl sendCommandS st) := by
      rw [foldl_sendCommandS]; exact hA
    have hW1 : WInv (i.enqueue.foldl sendCommandS st) := by
      rw [foldl_sendCommandS]
      intro h1 h2
      exact hW h1 h2
    have hc1 : (i.enqueue.foldl sendCommandS st).closed = false := by
      rw [foldl_sendCommandS]; exact hclf
    obtain ⟨hA2, hW2, hc2⟩ :=
      respStep_inv (i.enqueue.foldl sendCommandS st) ((k + 1) * 500) i.response hA1 hW1 hc1
    obtain ⟨hW3, hA3, hB3⟩ := processQueueS_inv _ ((k + 1) * 500) hW2 hA2
    have hc3 : (processQueueS
        (if i.response then handleResponseS (i.enqueue.foldl sendCommandS st) ((k + 1) * 500)
          else i.enqueue.foldl sendCommandS st) ((k + 1) * 500)).closed = false := by
      rw [processQueueS_closed]; exact hc2
    unfold schedStep
    rw [if_neg (by simp [hclf])]
    dsimp only
    by_cases hpar : (k + 1) % 2 = 0
    · rw [if_pos hpar]
      obtain ⟨hW4, hA4, hB4⟩ := heartbeatS_inv _ ((k + 1) * 500) hc3 hW3 hA3 hB3
      exact ⟨hA4, fun _ => hW4⟩
    · rw [if_neg hpar]
      exact ⟨hA3, fun _ => hW3⟩

/-- Running the scheduler from any invariant state keeps allocation
soundness. -/
theorem runSchedGo_inv (inputs : List SInput) (st : SchedState) (k : Nat)
    (hA : AInv st) (hWc : st.closed = false → WInv st) :
    AInv (runSchedGo st k inputs) := by
  induction inputs generalizing st k with
  | nil => exact hA
  | cons i rest ih =>
    obtain ⟨hA2, hW2⟩ := schedStep_inv st i k hA hWc
    exact ih (schedStep st i k) (k + 1) hA2 hW2

/-- C5: over every connected session run — any schedule of user
enqueues and command responses — the outbound sequence allocator of
BaseClient getSequence produces exactly the cycle 0, 1, ..., 255, 0, 1,
... (the n-th allocation carries n mod 256), no allocation is ever made
while a command is in flight (every logged in-flight flag is false: the
queue tick only allocates after the waiting flag is clear, and the
heartbeat only fires after more than 20 seconds of idleness, by which
time the 5-second command timeout has cleared the flag), and
sendCommand performs no allocation at enqueue time: it only appends the
command to the queue, leaving the counter and the allocation log
untouched, the sequence being drawn by processCommandQueue at dequeue
time. -/
theorem c5_sequence_allocator (inputs : List SInput) :
    ((runSched inputs).allocLog.map (fun e => e.2.1)
        = (List.range (runSched inputs).allocLog.length).map (fun i => i % 256))
    ∧ (∀ e ∈ (runSched inputs).allocLog, e.2.2 = false)
    ∧ (∀ (st : SchedState) (cmd : List Nat),
        (sendCommandS st cmd).sequence = st.sequence
          ∧ (sendCommandS st cmd).allocLog = st.allocLog
          ∧ (sendCommandS st cmd).commandQueue = st.commandQueue ++ [cmd]) := by
  have hA0 : AInv initSched :=
    ⟨fun e he => absurd he (by simp [initSched]), by simp [initSched], rfl⟩
  have hWc0 : initSched.closed = false → WInv initSched :=
    fun _ h1 h2 => by simp [initSched] at h2
  have hfin := runSchedGo_inv inputs initSched 0 hA0 hWc0
  exact ⟨hfin.2.1, hfin.1, fun st cmd => ⟨rfl, rfl, rfl⟩⟩
